import Mathlib

/-!
# NutritionModel: the form logic of `src/App.jsx`

A shallow embedding of the four functions of the `App` component that carry
logic (`getGroups`, `handleChange`, `calculateRisk`, `getRiskColor`) together
with the parts of the JavaScript semantics they rely on.

Modelling conventions.

* An object parsed from the bundled JSON file is an ordered list of own
  properties with pairwise distinct names (`Obj`).  A read `o[k]` that finds no
  own property goes on to `Object.prototype`; what a read through one of the
  names found there yields depends on the built-in objects of the engine and is
  a parameter (`builtinRead`) of the functions that perform such reads.
* Numbers are IEEE 754 doubles (`JSNum`): `NaN`, the two infinities, and the
  finite doubles, given by the rationals they denote.  Every arithmetic
  operation and every conversion of a numeral rounds to the nearest double,
  ties to even (`roundDouble`).  The two zeros are not told apart: the program
  divides by the literal `50` only, and `toFixed` prints both zeros alike.
* A read of a property of `undefined` throws a `TypeError`; `try`/`catch` is
  modelled with `Except`.
-/

namespace NutritionModel

/-! ## JavaScript values -/

/-- An object as `JSON.parse` builds it: own properties in creation order,
no name twice. -/
structure Obj (α : Type) where
  entries : List (String × α)
  nodup : (entries.map Prod.fst).Nodup

/-- The own property `k` of `o`: `none` when `o` has no own property of that
name. -/
def Obj.get? {α : Type} (o : Obj α) (k : String) : Option α :=
  o.entries.lookup k

/-- The names of the properties a plain object inherits from `Object.prototype`
(ECMAScript, Annex B included). -/
def objectPrototypeNames : List String :=
  ["constructor", "hasOwnProperty", "isPrototypeOf", "propertyIsEnumerable",
    "toLocaleString", "toString", "valueOf", "__proto__", "__defineGetter__",
    "__defineSetter__", "__lookupGetter__", "__lookupSetter__"]

/-- The three ways a read `o[k]` of a plain object ends: an own property, a
property of `Object.prototype`, or `undefined`. -/
inductive Read (α : Type) where
  | own (v : α)
  | inherited
  | undefined

/-- The read `o[k]` of a plain object. -/
def Obj.read {α : Type} (o : Obj α) (k : String) : Read α :=
  match o.get? k with
  | some v => .own v
  | none => if k ∈ objectPrototypeNames then .inherited else .undefined

/-- Array index test of ECMAScript: `k` is the canonical decimal text (digits
only, no leading zero unless the text is `0`) of an integer in `[0, 2^32 - 2]`;
the result is that integer. -/
def arrayIndex? (k : String) : Option ℕ :=
  let cs := k.data
  if cs ≠ [] ∧ cs.all Char.isDigit ∧ (cs.head? ≠ some '0' ∨ cs.length = 1) then
    let n := cs.foldl (fun acc c => 10 * acc + (c.toNat - '0'.toNat)) 0
    if n < 2 ^ 32 - 1 then some n else none
  else none

/-- The call `Object.keys(o)` (OrdinaryOwnPropertyKeys): the names that are array
indices in ascending numeric order, then the other names in creation order. -/
def Obj.keys {α : Type} (o : Obj α) : List String :=
  let names := o.entries.map Prod.fst
  let indices := names.filterMap (fun k => (arrayIndex? k).map (fun n => (n, k)))
  (indices.insertionSort (fun a b => a.1 ≤ b.1)).map Prod.snd
    ++ names.filter (fun k => (arrayIndex? k).isNone)

/-- A JavaScript number: `NaN`, an infinity, or a finite double given by the
rational it denotes. -/
inductive JSNum where
  | nan
  | inf (negative : Bool)
  | num (q : ℚ)
  deriving DecidableEq

/-- The integer nearest to `y`, the even one of the two on a tie (`y ≥ 0`). -/
def roundHalfEven (y : ℚ) : ℕ :=
  let n := ⌊y⌋₊
  if y - n < 1 / 2 then n
  else if 1 / 2 < y - n then n + 1
  else if n % 2 = 0 then n else n + 1

/-- The spacing of the doubles around the magnitude `a > 0`: `2^(e - 52)` for
`a` in `[2^e, 2^(e+1))` with `e ≥ -1022`, and `2^(-1074)` for `a` below
`2^(-1022)`.  At `a = 0` the value is immaterial: zero is a multiple of every
spacing. -/
def ulp (a : ℚ) : ℚ := 2 ^ (max (Int.log 2 a) (-1022) - 52)

/-- The multiple of `ulp a` nearest to the magnitude `a`, ties to even. -/
def roundMagnitude (a : ℚ) : ℚ := (roundHalfEven (a / ulp a) : ℚ) * ulp a

/-- The double nearest to the real number `q`, ties to even; an infinity when
the rounded magnitude reaches `2^1024`. -/
def roundDouble (q : ℚ) : JSNum :=
  let r := roundMagnitude |q|
  if 2 ^ (1024 : ℤ) ≤ r then .inf (decide (q < 0)) else .num (if q < 0 then -r else r)

/-- The Number value of a decimal numeral: a number of the JSON file, or the
text a range control delivers. -/
def numberOf (numeral : ℚ) : JSNum := roundDouble numeral

/-- Unary minus. -/
def JSNum.neg : JSNum → JSNum
  | .nan => .nan
  | .inf s => .inf (!s)
  | .num a => .num (-a)

/-- Addition of numbers. -/
def JSNum.add : JSNum → JSNum → JSNum
  | .num a, .num b => roundDouble (a + b)
  | .num _, .inf s => .inf s
  | .inf s, .num _ => .inf s
  | .inf s, .inf t => if s = t then .inf s else .nan
  | _, _ => .nan

/-- Subtraction of numbers. -/
def JSNum.sub (x y : JSNum) : JSNum := x.add y.neg

/-- Multiplication of numbers; zero times an infinity is `NaN`. -/
def JSNum.mul : JSNum → JSNum → JSNum
  | .num a, .num b => roundDouble (a * b)
  | .num a, .inf s => if a = 0 then .nan else .inf (xor s (decide (a < 0)))
  | .inf s, .num b => if b = 0 then .nan else .inf (xor s (decide (b < 0)))
  | .inf s, .inf t => .inf (xor s t)
  | _, _ => .nan

/-- The quotient `x / 50`. -/
def JSNum.div50 : JSNum → JSNum
  | .nan => .nan
  | .inf s => .inf s
  | .num a => roundDouble (a / 50)

instance : Add JSNum := ⟨JSNum.add⟩

instance : Sub JSNum := ⟨JSNum.sub⟩

instance : Mul JSNum := ⟨JSNum.mul⟩

/-- What the rest of `calculateRisk` can make of the value the `try` block
assigns to `baseRate`: `undefined`; a number (also standing for a value the
addition converts to that number: `null`, a boolean, a `Number` object); or
any other value (a text, a function, an ordinary object, a symbol), with which
`baseRate + fruitImpact + exerciseImpact` is a text or throws. -/
inductive Value where
  | undefined
  | number (x : JSNum)
  | other
  deriving DecidableEq

/-- The text `toFixed` returns: either spelled out, or the exponent form that
`Number::toString` gives a magnitude from `10^21` on, kept as sign and
magnitude. -/
inductive FixedText where
  | text (s : String)
  | exponent (negative : Bool) (x : ℚ)
  deriving DecidableEq

/-- The call `x.toFixed(1)` of `Number.prototype.toFixed`.  `NaN` and the
infinities print as `Number::toString` prints them.  Otherwise the sign
is split off, and a magnitude `x` below `10^21` is replaced by the integer `n`
with `n / 10` nearest to `x` (the larger one on a tie) and printed with one
digit after the point. -/
def toFixed : JSNum → FixedText
  | .nan => .text "NaN"
  | .inf s => .text (if s then "-Infinity" else "Infinity")
  | .num q =>
    let s := if q < 0 then "-" else ""
    let x := if q < 0 then -q else q
    if 10 ^ 21 ≤ x then .exponent (decide (q < 0)) x
    else
      let n := ⌊x * 10 + 1 / 2⌋₊
      .text (s ++ toString (n / 10) ++ "." ++ toString (n % 10))

/-! ## The dataset and the form state -/

/-- The `model_weights` part of the dataset: the numerals of the JSON text;
the Number value of a numeral is `numberOf` of it. -/
structure ModelWeights where
  low_fruit : ℚ
  no_exercise : ℚ

/-- The bundled dataset `projectData`: `demographics` maps state, category and
group to a base rate, given by the numeral of the JSON text. -/
structure Dataset where
  demographics : Obj (Obj (Obj ℚ))
  model_weights : ModelWeights

/-- The `formData` state of the component.  The two scores are given by the
numeral the field holds; `calculateRisk` converts it with `numberOf`. -/
structure FormData where
  state : String
  category : String
  group : String
  fruitScore : ℚ
  exerciseScore : ℚ
  deriving DecidableEq

/-- The initial `formData` of `useState`. -/
def initialFormData : FormData :=
  { state := "Texas", category := "Age (years)", group := "18 - 24",
    fruitScore := 50, exerciseScore := 50 }

/-- A change event of one of the five named controls (`e.target.name` with
`e.target.value`).  The three `select` controls deliver the option text; the two
range controls deliver a decimal text that the arithmetic of `calculateRisk`
converts to the number it denotes, which is what the event carries here. -/
inductive ChangeEvent where
  | state (value : String)
  | category (value : String)
  | group (value : String)
  | fruitScore (value : ℚ)
  | exerciseScore (value : ℚ)

/-! ## The functions of `App` -/

/-- The body of the `try` block of `getGroups`:
`Object.keys(projectData.demographics["Alabama"][currentCategory])`. -/
def getGroupsTry (projectData : Dataset) (currentCategory : String) :
    Except Unit (List String) :=
  match projectData.demographics.get? "Alabama" with
  | none => .error ()
  | some anchor =>
    match anchor.get? currentCategory with
    | none => .error ()
    | some groups => .ok groups.keys

/-- The function `getGroups`: the group labels of a category, read from the state
`"Alabama"`; `[]` when the read throws. -/
def getGroups (projectData : Dataset) (currentCategory : String) : List String :=
  match getGroupsTry projectData currentCategory with
  | .ok keys => keys
  | .error _ => []

/-- The expression `newGroups[0] || ""`. -/
def firstOrEmpty (newGroups : List String) : String :=
  match newGroups.head? with
  | some g => if g = "" then "" else g
  | none => ""

/-- The handler `handleChange`: a change of the category also resets the group; any other
change overwrites the one field named by the event. -/
def handleChange (projectData : Dataset) (formData : FormData) :
    ChangeEvent → FormData
  | .category value =>
    let newGroups := getGroups projectData value
    { formData with category := value, group := firstOrEmpty newGroups }
  | .state value => { formData with state := value }
  | .group value => { formData with group := value }
  | .fruitScore value => { formData with fruitScore := value }
  | .exerciseScore value => { formData with exerciseScore := value }

/-- The body of the `try` block of `calculateRisk`:
`demographics[formData.state][formData.category][formData.group]`.  A read of
`undefined` throws.  Once a name is found in `Object.prototype` only, the rest
of the chain is a matter of the built-in objects: `builtinRead path` is the
outcome of reading the names of `path` one after the other, starting from
`Object.prototype`. -/
def baseRateTry (builtinRead : List String → Except Unit Value) (projectData : Dataset)
    (formData : FormData) : Except Unit Value :=
  match projectData.demographics.read formData.state with
  | .undefined => .error ()
  | .inherited => builtinRead [formData.state, formData.category, formData.group]
  | .own categories =>
    match categories.read formData.category with
    | .undefined => .error ()
    | .inherited => builtinRead [formData.category, formData.group]
    | .own groups =>
      match groups.read formData.group with
      | .undefined => .ok .undefined
      | .inherited => builtinRead [formData.group]
      | .own rate => .ok (.number (numberOf rate))

/-- The variable `baseRate` after the `try`/`catch`: `30` unless the
assignment completed. -/
def baseRate (builtinRead : List String → Except Unit Value) (projectData : Dataset)
    (formData : FormData) : Value :=
  match baseRateTry builtinRead projectData formData with
  | .ok v => v
  | .error _ => .number (.num 30)

/-- The constant `fruitImpact`. -/
def fruitImpact (projectData : Dataset) (formData : FormData) : JSNum :=
  (numberOf formData.fruitScore - .num 50)
    * (numberOf projectData.model_weights.low_fruit).div50

/-- The constant `exerciseImpact`. -/
def exerciseImpact (projectData : Dataset) (formData : FormData) : JSNum :=
  (numberOf formData.exerciseScore - .num 50)
    * (numberOf projectData.model_weights.no_exercise).div50

/-- The variable `totalRisk`, when it is a number: `undefined` counts as `NaN`
in the sum; `none` when `baseRate` is a value with which the sum is a text or
throws. -/
def totalRisk (builtinRead : List String → Except Unit Value) (projectData : Dataset)
    (formData : FormData) : Option JSNum :=
  match baseRate builtinRead projectData formData with
  | .undefined => some (JSNum.nan + fruitImpact projectData formData
      + exerciseImpact projectData formData)
  | .number b => some (b + fruitImpact projectData formData
      + exerciseImpact projectData formData)
  | .other => none

/-- The function `calculateRisk`: the text handed to `setResult`, or the
`TypeError` that leaves the function when `totalRisk` is not a number. -/
def calculateRisk (builtinRead : List String → Except Unit Value) (projectData : Dataset)
    (formData : FormData) : Except Unit FixedText :=
  match totalRisk builtinRead projectData formData with
  | some total => .ok (toFixed total)
  | none => .error ()

/-- The comparison `score > bound` of a number with a literal; false on `NaN`. -/
def JSNum.gt (score : JSNum) (bound : ℚ) : Bool :=
  match score with
  | .nan => false
  | .inf s => !s
  | .num q => decide (bound < q)

/-- The function `getRiskColor`: the style class of a score. -/
def getRiskColor (score : JSNum) : String :=
  if score.gt 35 then "risk-high"
  else if score.gt 28 then "risk-med"
  else "risk-low"

/-! ## The scenario datasets of the specification and further concrete inputs -/

/-- The groups of the scenario dataset. -/
def texasGroups : Obj ℚ := ⟨[("18 - 24", 30)], by decide⟩

/-- The categories of the scenario dataset. -/
def texasCategories : Obj (Obj ℚ) := ⟨[("Age (years)", texasGroups)], by decide⟩

/-- The dataset of the scenarios: one state, one category, one group with base
rate 30, both weights 10. -/
def texasData : Dataset :=
  { demographics := ⟨[("Texas", texasCategories)], by decide⟩
    model_weights := { low_fruit := 10, no_exercise := 10 } }

/-- The selection of the first scenario. -/
def texasSelection : FormData :=
  { state := "Texas", category := "Age (years)", group := "18 - 24",
    fruitScore := 100, exerciseScore := 0 }

/-- The selection of the second scenario: a state the dataset does not have. -/
def nowhereSelection : FormData :=
  { texasSelection with state := "Nowhere" }

/-- A selection whose state and category exist while its group does not. -/
def missingGroupSelection : FormData :=
  { texasSelection with group := "65+" }

/-- The scenario dataset with both weights set to 1. -/
def unitWeightData : Dataset :=
  { texasData with model_weights := { low_fruit := 1, no_exercise := 1 } }

/-- The scenario dataset with both weights set to -10. -/
def negativeWeightData : Dataset :=
  { texasData with model_weights := { low_fruit := -10, no_exercise := -10 } }

/-- The scenario dataset with both weights set to 2.5. -/
def halfWeightData : Dataset :=
  { texasData with model_weights := { low_fruit := 5 / 2, no_exercise := 5 / 2 } }

/-- The scenario dataset with the fruit weight `1e400`, a numeral beyond the
range of the doubles. -/
def hugeWeightData : Dataset :=
  { texasData with model_weights := { low_fruit := 10 ^ 400, no_exercise := 10 } }

/-- The first scenario with the fruit score 53 and the exercise score 50. -/
def fiftyThreeSelection : FormData :=
  { texasSelection with fruitScore := 53, exerciseScore := 50 }

/-- The second scenario with the fruit score 53 and the exercise score 50. -/
def nowhereFiftyThreeSelection : FormData :=
  { nowhereSelection with fruitScore := 53, exerciseScore := 50 }

/-- A selection whose three names are found in built-in objects: the state in
`Object.prototype`, the category in the function `Object`, the group in the
text `Object`. -/
def constructorSelection : FormData :=
  { state := "constructor", category := "name", group := "length",
    fruitScore := 50, exerciseScore := 50 }

/-- The groups of the category `Age (years)` of the anchor state of `alabamaData`. -/
def alabamaAgeGroups : Obj ℚ := ⟨[("18 - 24", 29), ("25 - 34", 35)], by decide⟩

/-- The groups of the category `Gender` of the anchor state of `alabamaData`. -/
def alabamaGenderGroups : Obj ℚ := ⟨[("Male", 36), ("Female", 37)], by decide⟩

/-- The anchor state of `alabamaData`. -/
def alabamaCategories : Obj (Obj ℚ) :=
  ⟨[("Age (years)", alabamaAgeGroups), ("Gender", alabamaGenderGroups)], by decide⟩

/-- A dataset with the anchor state: two categories with two groups each. -/
def alabamaData : Dataset :=
  { demographics := ⟨[("Alabama", alabamaCategories)], by decide⟩
    model_weights := { low_fruit := 10, no_exercise := 10 } }

/-- A category object without any group. -/
def noGroups : Obj ℚ := ⟨[], by decide⟩

/-- A category object whose group labels are array indices, the larger one
stored first. -/
def yearGroups : Obj ℚ := ⟨[("2", 31), ("1", 30)], by decide⟩

/-- The anchor state of `oddAnchorData`. -/
def oddAnchorCategories : Obj (Obj ℚ) :=
  ⟨[("Gender", noGroups), ("Year", yearGroups)], by decide⟩

/-- A dataset whose anchor state has a category without any group and a
category whose group labels are array indices. -/
def oddAnchorData : Dataset :=
  { demographics := ⟨[("Alabama", oddAnchorCategories)], by decide⟩
    model_weights := { low_fruit := 10, no_exercise := 10 } }

/-! ## Lemmas on the nearest double -/

theorem roundHalfEven_natCast (n : ℕ) : roundHalfEven (n : ℚ) = n := by
  simp [roundHalfEven]

theorem roundHalfEven_cases (y : ℚ) :
    roundHalfEven y = ⌊y⌋₊ ∨ roundHalfEven y = ⌊y⌋₊ + 1 := by
  unfold roundHalfEven
  simp only
  split_ifs <;> simp

theorem abs_roundHalfEven_sub_le (y : ℚ) (hy : 0 ≤ y) : |(roundHalfEven y : ℚ) - y| ≤ 1 / 2 := by
  have h1 : (⌊y⌋₊ : ℚ) ≤ y := Nat.floor_le hy
  have h2 : y < (⌊y⌋₊ : ℚ) + 1 := Nat.lt_floor_add_one y
  unfold roundHalfEven
  simp only
  rw [abs_le]
  split_ifs with h3 h4 h5
  · constructor <;> linarith
  · push_cast; constructor <;> linarith
  · constructor <;> linarith
  · push_cast; constructor <;> linarith

theorem roundHalfEven_le (y : ℚ) (N : ℕ) (hy : 0 ≤ y) (h : y ≤ N) : roundHalfEven y ≤ N := by
  rcases lt_or_eq_of_le h with h | h
  · have hf : ⌊y⌋₊ < N := (Nat.floor_lt hy).2 h
    rcases roundHalfEven_cases y with h1 | h1 <;> omega
  · rw [h, roundHalfEven_natCast]

theorem le_roundHalfEven (y : ℚ) (N : ℕ) (h : (N : ℚ) ≤ y) : N ≤ roundHalfEven y := by
  have hf : N ≤ ⌊y⌋₊ := Nat.le_floor h
  rcases roundHalfEven_cases y with h1 | h1 <;> omega

theorem two_pow_mul_zpow (n : ℕ) (z : ℤ) : ((2 ^ n : ℕ) : ℚ) * 2 ^ z = 2 ^ (z + n) := by
  rw [Nat.cast_pow, Nat.cast_ofNat, ← zpow_natCast, ← zpow_add₀ (by norm_num), add_comm]

theorem ulp_pos (a : ℚ) : 0 < ulp a := by
  unfold ulp; positivity

/-- The exponent used for a magnitude in the binade of `2^e`. -/
theorem ulp_of_binade (a : ℚ) (e : ℤ) (he : -1022 ≤ e) (h1 : (2 : ℚ) ^ e ≤ a)
    (h2 : a < (2 : ℚ) ^ (e + 1)) : ulp a = 2 ^ (e - 52) := by
  have ha : 0 < a := lt_of_lt_of_le (by positivity) h1
  have hl : Int.log 2 a = e := by
    apply le_antisymm
    · have := (Int.lt_zpow_iff_log_lt (b := 2) (by norm_num) ha).1 (by exact_mod_cast h2)
      omega
    · exact (Int.zpow_le_iff_le_log (b := 2) (by norm_num) ha).1 (by exact_mod_cast h1)
  unfold ulp
  rw [hl, max_eq_left he]

theorem ulp_of_subnormal (a : ℚ) (ha : 0 < a) (h : a < (2 : ℚ) ^ (-1022 : ℤ)) :
    ulp a = 2 ^ (-1074 : ℤ) := by
  have hl : Int.log 2 a < -1022 :=
    (Int.lt_zpow_iff_log_lt (b := 2) (by norm_num) ha).1 (by exact_mod_cast h)
  unfold ulp
  rw [max_eq_right (le_of_lt hl)]
  norm_num

theorem roundMagnitude_zero : roundMagnitude 0 = 0 := by
  simp [roundMagnitude, roundHalfEven]

/-- If `|x| ≤ 2^k`, the nearest double is finite, of magnitude at most `2^k`, and
within `2^(k-53)` of `x`. -/
theorem roundMagnitude_bound (a : ℚ) (k : ℤ) (ha : 0 ≤ a) (hk : -1022 ≤ k) (h : a ≤ 2 ^ k) :
    roundMagnitude a ≤ 2 ^ k ∧ |roundMagnitude a - a| ≤ 2 ^ (k - 53) := by
  rcases eq_or_lt_of_le ha with h0 | h0
  · rw [← h0, roundMagnitude_zero]
    constructor
    · positivity
    · simp only [sub_self, abs_zero]; positivity
  have hu := ulp_pos a
  have hle : max (Int.log 2 a) (-1022) ≤ k := by
    apply max_le _ hk
    by_contra hc
    push_neg at hc
    have h3 : (2 : ℚ) ^ (k + 1) ≤ a := by
      have := (Int.zpow_le_iff_le_log (b := 2) (by norm_num) h0).2
        (show k + 1 ≤ Int.log 2 a by omega)
      exact_mod_cast this
    have h4 : (2 : ℚ) ^ k < 2 ^ (k + 1) := zpow_lt_zpow_right₀ (by norm_num) (by omega)
    linarith
  obtain ⟨j, hj⟩ : ∃ j : ℕ, k = max (Int.log 2 a) (-1022) + j :=
    ⟨(k - max (Int.log 2 a) (-1022)).toNat, by omega⟩
  have hN : (2 : ℚ) ^ k = ((2 ^ (j + 52) : ℕ) : ℚ) * ulp a := by
    unfold ulp
    rw [two_pow_mul_zpow]; congr 1; push_cast; omega
  have hy : 0 ≤ a / ulp a := div_nonneg ha hu.le
  have hyN : a / ulp a ≤ ((2 ^ (j + 52) : ℕ) : ℚ) := by
    rw [div_le_iff₀ hu, ← hN]; exact h
  constructor
  · unfold roundMagnitude
    rw [hN]
    exact mul_le_mul_of_nonneg_right (by exact_mod_cast roundHalfEven_le _ _ hy hyN) hu.le
  · have h5 := abs_roundHalfEven_sub_le _ hy
    have h6 : roundMagnitude a - a = ((roundHalfEven (a / ulp a) : ℚ) - a / ulp a) * ulp a := by
      unfold roundMagnitude
      field_simp
    rw [h6, abs_mul, abs_of_pos hu]
    have h7 : ulp a ≤ 2 ^ (k - 52) := by
      unfold ulp
      exact zpow_le_zpow_right₀ (by norm_num) (by omega)
    have h8 : (2 : ℚ) ^ (k - 53) = 1 / 2 * 2 ^ (k - 52) := by
      rw [show k - 52 = (k - 53) + 1 by ring, zpow_add_one₀ (by norm_num)]
      ring
    rw [h8]
    exact mul_le_mul h5 h7 hu.le (by norm_num)

theorem roundHalfEven_of_lt (y : ℚ) (m : ℕ) (h1 : (m : ℚ) - 1 / 2 < y) (h2 : y < m + 1 / 2) :
    roundHalfEven y = m := by
  rcases le_or_lt (m : ℚ) y with h | h
  · have hf : ⌊y⌋₊ = m := (Nat.floor_eq_iff (le_trans (Nat.cast_nonneg m) h)).2 ⟨h, by linarith⟩
    have h3 : y - m < 1 / 2 := by linarith
    simp only [roundHalfEven, hf]
    rw [if_pos h3]
  · rcases Nat.eq_zero_or_pos m with h0 | h0
    · subst h0
      have hf : ⌊y⌋₊ = 0 := Nat.floor_eq_zero.2 (by push_cast at h; linarith)
      have h3 : y - (0 : ℕ) < 1 / 2 := by push_cast at h ⊢; linarith
      simp only [roundHalfEven, hf]
      rw [if_pos h3]
    · obtain ⟨n, rfl⟩ : ∃ n, m = n + 1 := ⟨m - 1, by omega⟩
      push_cast at h1 h2 h
      have hy : 0 ≤ y := by linarith
      have hf : ⌊y⌋₊ = n := (Nat.floor_eq_iff hy).2 ⟨by linarith, by linarith⟩
      have h3 : ¬ y - n < 1 / 2 := by linarith
      have h4 : 1 / 2 < y - n := by linarith
      simp only [roundHalfEven, hf]
      rw [if_neg h3, if_pos h4]

theorem roundHalfEven_tie (y : ℚ) (n : ℕ) (h : y = n + 1 / 2) :
    roundHalfEven y = if n % 2 = 0 then n else n + 1 := by
  have hf : ⌊y⌋₊ = n := (Nat.floor_eq_iff (by rw [h]; positivity)).2 ⟨by linarith, by linarith⟩
  have h3 : ¬ y - n < 1 / 2 := by linarith
  have h4 : ¬ 1 / 2 < y - n := by linarith
  simp only [roundHalfEven, hf]
  rw [if_neg h3, if_neg h4]

theorem roundMagnitude_eq (a : ℚ) (e : ℤ) (m : ℕ) (he : -1022 ≤ e) (h1 : (2 : ℚ) ^ e ≤ a)
    (h2 : a < (2 : ℚ) ^ (e + 1)) (hm : roundHalfEven (a / 2 ^ (e - 52)) = m) :
    roundMagnitude a = m * 2 ^ (e - 52) := by
  unfold roundMagnitude
  rw [ulp_of_binade a e he h1 h2, hm]

theorem roundMagnitude_of_multiple (x : ℚ) (N : ℕ) (h : x = N * ulp x) :
    roundMagnitude x = x := by
  have hu := ulp_pos x
  have hd : x / ulp x = N := by
    rw [div_eq_iff hu.ne']; exact h
  unfold roundMagnitude
  rw [hd, roundHalfEven_natCast]
  exact h.symm

theorem log_le_of_le_zpow (a : ℚ) (k : ℤ) (ha : 0 < a) (h : a < 2 ^ (k + 1)) :
    Int.log 2 a ≤ k := by
  have := (Int.lt_zpow_iff_log_lt (b := 2) (by norm_num) ha).1 (by exact_mod_cast h)
  omega

theorem lt_zpow_exponent (a : ℚ) : a < 2 ^ (max (Int.log 2 a) (-1022) + 1) := by
  have h := Int.lt_zpow_succ_log_self (b := 2) (by norm_num) a
  have h2 : (2 : ℚ) ^ (Int.log 2 a + 1) ≤ 2 ^ (max (Int.log 2 a) (-1022) + 1) :=
    zpow_le_zpow_right₀ (by norm_num) (by have := le_max_left (Int.log 2 a) (-1022); omega)
  push_cast at h
  linarith

theorem roundMagnitude_nonneg (a : ℚ) : 0 ≤ roundMagnitude a := by
  unfold roundMagnitude
  exact mul_nonneg (Nat.cast_nonneg _) (ulp_pos a).le

/-- Rounding a double again does not change it. -/
theorem roundMagnitude_idem (a : ℚ) (ha : 0 ≤ a) :
    roundMagnitude (roundMagnitude a) = roundMagnitude a := by
  set r := roundMagnitude a with hr
  rcases eq_or_lt_of_le (roundMagnitude_nonneg a) with h0 | h0
  · rw [← hr] at h0
    rw [← h0, roundMagnitude_zero]
  rw [← hr] at h0
  set E := max (Int.log 2 a) (-1022) with hE
  have hu : ulp a = 2 ^ (E - 52) := rfl
  have hE1 : -1022 ≤ E := le_max_right _ _
  have hupos := ulp_pos a
  have hy : 0 ≤ a / ulp a := div_nonneg ha hupos.le
  have hm : roundHalfEven (a / ulp a) ≤ 2 ^ 53 := by
    apply roundHalfEven_le _ _ hy
    rw [div_le_iff₀ hupos, hu]
    have h1 := lt_zpow_exponent a
    rw [← hE] at h1
    have h2 : ((2 ^ 53 : ℕ) : ℚ) * 2 ^ (E - 52) = 2 ^ (E + 1) := by
      rw [two_pow_mul_zpow]; congr 1; push_cast; ring
    rw [h2]
    exact h1.le
  have hrle : r ≤ 2 ^ (E + 1) := by
    have h2 : ((2 ^ 53 : ℕ) : ℚ) * 2 ^ (E - 52) = 2 ^ (E + 1) := by
      rw [two_pow_mul_zpow]; congr 1; push_cast; ring
    rw [← h2, hr]
    unfold roundMagnitude
    rw [hu]
    exact mul_le_mul_of_nonneg_right (by exact_mod_cast hm) (by positivity)
  have hlog : Int.log 2 r ≤ E + 1 := by
    apply log_le_of_le_zpow r (E + 1) h0
    have : (2 : ℚ) ^ (E + 1) < 2 ^ (E + 1 + 1) := zpow_lt_zpow_right₀ (by norm_num) (by omega)
    linarith
  rcases lt_or_eq_of_le hlog with hlt | heq
  · -- the exponent did not grow: the grid of `r` refines the grid of `a`
    have hEr : max (Int.log 2 r) (-1022) ≤ E := max_le (by omega) hE1
    obtain ⟨j, hj⟩ : ∃ j : ℕ, E = max (Int.log 2 r) (-1022) + j :=
      ⟨(E - max (Int.log 2 r) (-1022)).toNat, by omega⟩
    apply roundMagnitude_of_multiple r (roundHalfEven (a / ulp a) * 2 ^ j)
    have hur : ulp r = 2 ^ (max (Int.log 2 r) (-1022) - 52) := rfl
    have h3 : (2 : ℚ) ^ (E - 52) = ((2 ^ j : ℕ) : ℚ) * ulp r := by
      rw [hur, two_pow_mul_zpow]; congr 1; omega
    calc r = (roundHalfEven (a / ulp a) : ℚ) * 2 ^ (E - 52) := rfl
      _ = ((roundHalfEven (a / ulp a) * 2 ^ j : ℕ) : ℚ) * ulp r := by
        rw [h3]; push_cast; ring
  · -- the rounding reached the next power of two
    have h4 : (2 : ℚ) ^ (E + 1) ≤ r := by
      have := Int.zpow_log_le_self (b := 2) (r := r) (by norm_num) h0
      rw [heq] at this
      exact_mod_cast this
    have hreq : r = 2 ^ (E + 1) := le_antisymm hrle h4
    apply roundMagnitude_of_multiple r (2 ^ 52)
    have hur : ulp r = 2 ^ (E + 1 - 52) := by
      unfold ulp
      rw [heq, max_eq_left (by omega)]
    rw [hur, two_pow_mul_zpow, hreq]
    congr 1
    push_cast; ring

/-- From `2^1024` on the rounded magnitude is at least `2^1024`. -/
theorem roundMagnitude_overflow (a : ℚ) (h : (2 : ℚ) ^ (1024 : ℤ) ≤ a) :
    (2 : ℚ) ^ (1024 : ℤ) ≤ roundMagnitude a := by
  have ha : 0 < a := lt_of_lt_of_le (by positivity) h
  have hl : (1024 : ℤ) ≤ Int.log 2 a :=
    (Int.zpow_le_iff_le_log (b := 2) (by norm_num) ha).1 (by exact_mod_cast h)
  have hu : ulp a = 2 ^ (Int.log 2 a - 52) := by
    unfold ulp
    rw [max_eq_left (by omega)]
  have h1 : (2 : ℚ) ^ (Int.log 2 a) ≤ a := by
    have := Int.zpow_log_le_self (b := 2) (r := a) (by norm_num) ha
    exact_mod_cast this
  have h2 : ((2 ^ 52 : ℕ) : ℚ) ≤ a / ulp a := by
    rw [le_div_iff₀ (ulp_pos a), hu, two_pow_mul_zpow]
    have : Int.log 2 a - 52 + ((52 : ℕ) : ℤ) = Int.log 2 a := by push_cast; ring
    rw [this]
    exact h1
  have h3 := le_roundHalfEven _ _ h2
  rw [hu] at h3
  have h4 : (2 : ℚ) ^ (Int.log 2 a) ≤ roundMagnitude a := by
    unfold roundMagnitude
    rw [hu]
    have h5 : (2 : ℚ) ^ (Int.log 2 a) = ((2 ^ 52 : ℕ) : ℚ) * 2 ^ (Int.log 2 a - 52) := by
      rw [two_pow_mul_zpow]; congr 1; push_cast; ring
    rw [h5]
    exact mul_le_mul_of_nonneg_right (by exact_mod_cast h3) (by positivity)
  have h6 : (2 : ℚ) ^ (1024 : ℤ) ≤ 2 ^ (Int.log 2 a) :=
    zpow_le_zpow_right₀ (by norm_num) hl
  linarith

theorem roundMagnitude_natCast (n : ℕ) (h : n < 2 ^ 53) : roundMagnitude (n : ℚ) = n := by
  rcases Nat.eq_zero_or_pos n with h0 | h0
  · subst h0; simpa using roundMagnitude_zero
  have hn : (0 : ℚ) < n := by exact_mod_cast h0
  have hl0 : 0 ≤ Int.log 2 (n : ℚ) :=
    (Int.zpow_le_iff_le_log (b := 2) (by norm_num) hn).1 (by
      simp only [zpow_zero]; exact_mod_cast h0)
  have hl1 : Int.log 2 (n : ℚ) ≤ 52 := by
    apply log_le_of_le_zpow _ _ hn
    have : (n : ℚ) < ((2 ^ 53 : ℕ) : ℚ) := by exact_mod_cast h
    rw [Nat.cast_pow, Nat.cast_ofNat] at this
    exact_mod_cast this
  obtain ⟨j, hj⟩ : ∃ j : ℕ, (52 : ℤ) = Int.log 2 (n : ℚ) + j :=
    ⟨(52 - Int.log 2 (n : ℚ)).toNat, by omega⟩
  apply roundMagnitude_of_multiple _ (n * 2 ^ j)
  have hu : ulp (n : ℚ) = 2 ^ (Int.log 2 (n : ℚ) - 52) := by
    unfold ulp
    rw [max_eq_left (by omega)]
  rw [hu, Nat.cast_mul, mul_assoc, two_pow_mul_zpow]
  have : Int.log 2 (n : ℚ) - 52 + (j : ℤ) = 0 := by omega
  rw [this, zpow_zero, mul_one]

/-! ### The nearest double -/

theorem roundDouble_of_abs_le (x : ℚ) (k : ℤ) (hk1 : -1022 ≤ k) (hk2 : k ≤ 1023)
    (h : |x| ≤ 2 ^ k) :
    ∃ y, roundDouble x = .num y ∧ |y| ≤ 2 ^ k ∧ |y - x| ≤ 2 ^ (k - 53) := by
  obtain ⟨h1, h2⟩ := roundMagnitude_bound |x| k (abs_nonneg x) hk1 h
  have h3 : (2 : ℚ) ^ k < 2 ^ (1024 : ℤ) := zpow_lt_zpow_right₀ (by norm_num) (by omega)
  have h4 : ¬ (2 : ℚ) ^ (1024 : ℤ) ≤ roundMagnitude |x| := by linarith
  have hr := roundMagnitude_nonneg |x|
  refine ⟨if x < 0 then -roundMagnitude |x| else roundMagnitude |x|, ?_, ?_, ?_⟩
  · simp only [roundDouble, if_neg h4]
  · split_ifs
    · rw [abs_neg, abs_of_nonneg hr]; exact h1
    · rw [abs_of_nonneg hr]; exact h1
  · split_ifs with hx
    · rw [abs_of_neg hx] at h2
      rw [show -roundMagnitude |x| - x = -(roundMagnitude |x| - -x) by ring, abs_neg]
      rw [abs_of_neg hx]
      exact h2
    · rw [abs_of_nonneg (not_lt.1 hx)] at h2
      rw [abs_of_nonneg (not_lt.1 hx)]
      exact h2

theorem roundDouble_overflow (x : ℚ) (h : (2 : ℚ) ^ (1024 : ℤ) ≤ |x|) :
    roundDouble x = .inf (decide (x < 0)) := by
  simp only [roundDouble, if_pos (roundMagnitude_overflow _ h)]

/-- A double is its own nearest double. -/
theorem roundDouble_idem (x y : ℚ) (h : roundDouble x = .num y) : roundDouble y = .num y := by
  have hr := roundMagnitude_nonneg |x|
  unfold roundDouble at h
  simp only at h
  split_ifs at h with h1 h2
  · -- `x < 0`
    have hy : y = -roundMagnitude |x| := (JSNum.num.inj h).symm
    have hay : |y| = roundMagnitude |x| := by rw [hy, abs_neg, abs_of_nonneg hr]
    have hi : roundMagnitude |y| = roundMagnitude |x| := by
      rw [hay]; exact roundMagnitude_idem _ (abs_nonneg x)
    simp only [roundDouble, hi, if_neg h1]
    congr 1
    split_ifs with h3
    · exact hy.symm
    · have : roundMagnitude |x| = 0 := by
        have : 0 ≤ y := not_lt.1 h3
        rw [hy] at this
        linarith
      rw [hy, this]; simp
  · have hy : y = roundMagnitude |x| := (JSNum.num.inj h).symm
    have hay : |y| = roundMagnitude |x| := by rw [hy, abs_of_nonneg hr]
    have hi : roundMagnitude |y| = roundMagnitude |x| := by
      rw [hay]; exact roundMagnitude_idem _ (abs_nonneg x)
    have h3 : ¬ y < 0 := by rw [hy]; exact not_lt.2 hr
    simp only [roundDouble, hi, if_neg h1, if_neg h3]
    rw [hy]

theorem roundDouble_natCast (n : ℕ) (h : n < 2 ^ 53) : roundDouble (n : ℚ) = .num n := by
  have h1 : |(n : ℚ)| = n := abs_of_nonneg (Nat.cast_nonneg n)
  have h2 : ¬ (2 : ℚ) ^ (1024 : ℤ) ≤ (n : ℚ) := by
    have : (n : ℚ) < ((2 ^ 53 : ℕ) : ℚ) := by exact_mod_cast h
    rw [Nat.cast_pow, Nat.cast_ofNat, ← zpow_natCast] at this
    have h3 : (2 : ℚ) ^ ((53 : ℕ) : ℤ) < 2 ^ (1024 : ℤ) :=
      zpow_lt_zpow_right₀ (by norm_num) (by norm_num)
    linarith
  have h3 : ¬ (n : ℚ) < 0 := not_lt.2 (Nat.cast_nonneg n)
  simp only [roundDouble, h1, roundMagnitude_natCast n h, if_neg h2, if_neg h3]

/-- Evaluation of the nearest double of a positive rational in a normal binade. -/
theorem roundDouble_eq (q : ℚ) (e : ℤ) (m : ℕ) (he1 : -1022 ≤ e) (he2 : e ≤ 1022)
    (h1 : (2 : ℚ) ^ e ≤ q) (h2 : q < (2 : ℚ) ^ (e + 1))
    (hm : roundHalfEven (q / 2 ^ (e - 52)) = m) : roundDouble q = .num (m * 2 ^ (e - 52)) := by
  have hq : 0 < q := lt_of_lt_of_le (by positivity) h1
  have ha : |q| = q := abs_of_pos hq
  have hb := (roundMagnitude_bound q (e + 1) hq.le (by omega) h2.le).1
  have h3 : (2 : ℚ) ^ (e + 1) < 2 ^ (1024 : ℤ) := zpow_lt_zpow_right₀ (by norm_num) (by omega)
  have h4 : ¬ (2 : ℚ) ^ (1024 : ℤ) ≤ roundMagnitude q := by linarith
  simp only [roundDouble, ha, if_neg h4, if_neg (not_lt.2 hq.le)]
  rw [roundMagnitude_eq q e m he1 h1 h2 hm]

theorem roundDouble_neg (q : ℚ) : roundDouble (-q) = (roundDouble q).neg := by
  unfold roundDouble
  simp only [abs_neg]
  rcases lt_trichotomy q 0 with h | h | h
  · have h1 : ¬ -q < 0 := by linarith
    split_ifs <;> simp_all [JSNum.neg]
  · subst h
    have h0 : ¬ (2 : ℚ) ^ (1024 : ℤ) ≤ 0 := not_le.2 (by positivity)
    simp [roundMagnitude_zero, h0, JSNum.neg]
  · have h1 : -q < 0 := by linarith
    have h2 : ¬ q < 0 := by linarith
    split_ifs <;> simp_all [JSNum.neg]

/-! ## Lemmas on the arithmetic and on `toFixed` -/

theorem JSNum.num_add_num (a b : ℚ) : JSNum.num a + JSNum.num b = roundDouble (a + b) :=
  rfl

theorem JSNum.num_sub_num (a b : ℚ) : JSNum.num a - JSNum.num b = roundDouble (a - b) := by
  show roundDouble (a + -b) = roundDouble (a - b)
  rw [sub_eq_add_neg]

theorem JSNum.num_mul_num (a b : ℚ) : JSNum.num a * JSNum.num b = roundDouble (a * b) :=
  rfl

theorem JSNum.div50_num (a : ℚ) : (JSNum.num a).div50 = roundDouble (a / 50) :=
  rfl

@[simp] theorem JSNum.nan_add (x : JSNum) : JSNum.nan + x = JSNum.nan := by
  cases x <;> rfl

@[simp] theorem JSNum.add_nan (x : JSNum) : x + JSNum.nan = JSNum.nan := by
  cases x <;> rfl

theorem roundDouble_zero : roundDouble 0 = .num 0 := by
  have h := roundDouble_natCast 0 (by norm_num)
  simpa using h

/-- The nearest double of a natural number below `2^53` is that number. -/
theorem roundDouble_of_nat (q : ℚ) (n : ℕ) (hq : q = n) (h : n < 2 ^ 53) :
    roundDouble q = .num q := by
  rw [hq]; exact roundDouble_natCast n h

/-- The nearest double of the negative of a natural number below `2^53`. -/
theorem roundDouble_of_neg_nat (q : ℚ) (n : ℕ) (hq : q = -n) (h : n < 2 ^ 53) :
    roundDouble q = .num q := by
  rw [hq, roundDouble_neg, roundDouble_natCast n h]; rfl

/-- A finite double has a magnitude below `2^1024`. -/
theorem abs_lt_of_roundDouble (x y : ℚ) (h : roundDouble x = .num y) :
    |y| < 2 ^ (1024 : ℤ) := by
  have hr := roundMagnitude_nonneg |x|
  unfold roundDouble at h
  simp only at h
  split_ifs at h with h1 h2
  · rw [← JSNum.num.inj h, abs_neg, abs_of_nonneg hr]; exact not_le.1 h1
  · rw [← JSNum.num.inj h, abs_of_nonneg hr]; exact not_le.1 h1

/-- How `toFixed` prints a magnitude below `10^21` whose tenths round to `n`. -/
theorem toFixed_of_tenths (q : ℚ) (n : ℕ) (h0 : 0 ≤ q) (hbig : q < 10 ^ 21)
    (hlo : (n : ℚ) ≤ q * 10 + 1 / 2) (hhi : q * 10 + 1 / 2 < n + 1) :
    toFixed (.num q) = .text (toString (n / 10) ++ "." ++ toString (n % 10)) := by
  have hn : ⌊q * 10 + 1 / 2⌋₊ = n := (Nat.floor_eq_iff (by positivity)).2 ⟨hlo, hhi⟩
  simp only [toFixed, not_lt.2 h0, not_le.2 hbig, if_false, hn]
  simp

theorem toFixed_thirty : toFixed (.num 30) = .text "30.0" := by
  rw [toFixed_of_tenths 30 300 (by norm_num) (by norm_num) (by norm_num) (by norm_num)]
  decide

/-- Below `10^21`, `toFixed` prints the sign and the tenth nearest to the
magnitude. -/
theorem toFixed_rounds (q : ℚ) (h : |q| < 10 ^ 21) :
    ∃ n : ℕ,
      toFixed (.num q)
          = .text ((if q < 0 then "-" else "") ++ toString (n / 10) ++ "." ++ toString (n % 10))
        ∧ |(n : ℚ) / 10 - abs q| ≤ 1 / 20 := by
  have key : ∀ x : ℚ, 0 ≤ x → |(⌊x * 10 + 1 / 2⌋₊ : ℚ) / 10 - x| ≤ 1 / 20 := by
    intro x hx
    have h1 : (⌊x * 10 + 1 / 2⌋₊ : ℚ) ≤ x * 10 + 1 / 2 := Nat.floor_le (by positivity)
    have h2 : x * 10 + 1 / 2 < (⌊x * 10 + 1 / 2⌋₊ : ℚ) + 1 := Nat.lt_floor_add_one _
    rw [abs_le]
    constructor <;> linarith
  by_cases hq : q < 0
  · have ha : |q| = -q := abs_of_neg hq
    rw [ha] at h
    refine ⟨⌊-q * 10 + 1 / 2⌋₊, ?_, ?_⟩
    · simp only [toFixed, hq, if_true, not_le.2 h, if_false]
    · rw [ha]
      exact key (-q) (by linarith)
  · have ha : |q| = q := abs_of_nonneg (not_lt.1 hq)
    rw [ha] at h
    refine ⟨⌊q * 10 + 1 / 2⌋₊, ?_, ?_⟩
    · simp only [toFixed, hq, if_false, not_le.2 h]
    · rw [ha]
      exact key q (not_lt.1 hq)

/-! ## Evaluation of the nearest double at concrete numbers -/

/-- Evaluation of `roundDouble` at a positive number that is not half way
between two doubles. -/
theorem roundDouble_eval (q : ℚ) (e : ℤ) (m : ℕ) (v : ℚ) (he1 : -1022 ≤ e) (he2 : e ≤ 1022)
    (h1 : (2 : ℚ) ^ e ≤ q) (h2 : q < (2 : ℚ) ^ (e + 1))
    (hlo : (m : ℚ) - 1 / 2 < q / 2 ^ (e - 52)) (hhi : q / 2 ^ (e - 52) < m + 1 / 2)
    (hv : v = m * 2 ^ (e - 52)) : roundDouble q = .num v := by
  rw [hv]
  exact roundDouble_eq q e m he1 he2 h1 h2 (roundHalfEven_of_lt _ _ hlo hhi)

/-- Evaluation of `roundDouble` at a positive number half way between two
doubles, the lower one with an odd significand. -/
theorem roundDouble_eval_tie (q : ℚ) (e : ℤ) (n : ℕ) (v : ℚ) (he1 : -1022 ≤ e)
    (he2 : e ≤ 1022) (h1 : (2 : ℚ) ^ e ≤ q) (h2 : q < (2 : ℚ) ^ (e + 1))
    (ht : q / 2 ^ (e - 52) = n + 1 / 2) (hodd : n % 2 = 1)
    (hv : v = (n + 1 : ℕ) * 2 ^ (e - 52)) : roundDouble q = .num v := by
  rw [hv]
  refine roundDouble_eq q e (n + 1) he1 he2 h1 h2 ?_
  rw [roundHalfEven_tie _ n ht, if_neg (by omega)]

/-- Evaluation of `roundDouble` at a negative number. -/
theorem roundDouble_eval_neg (q p v : ℚ) (hq : q = -p) (hp : roundDouble p = .num v) :
    roundDouble q = .num (-v) := by
  rw [hq, roundDouble_neg, hp]; rfl

/-- The double nearest to `1/5`. -/
theorem roundDouble_fifth :
    roundDouble (1 / 5) = .num (3602879701896397 / 18014398509481984) :=
  roundDouble_eval (1 / 5) (-3) 7205759403792794 _ (by norm_num) (by norm_num)
    (by norm_num) (by norm_num) (by norm_num) (by norm_num) (by norm_num)

/-- The double nearest to `1/20`. -/
theorem roundDouble_twentieth :
    roundDouble (1 / 20) = .num (3602879701896397 / 72057594037927936) :=
  roundDouble_eval (1 / 20) (-5) 7205759403792794 _ (by norm_num) (by norm_num)
    (by norm_num) (by norm_num) (by norm_num) (by norm_num) (by norm_num)

/-- The double nearest to `1/50`. -/
theorem roundDouble_fiftieth :
    roundDouble (1 / 50) = .num (5764607523034235 / 288230376151711744) :=
  roundDouble_eval (1 / 50) (-6) 5764607523034235 _ (by norm_num) (by norm_num)
    (by norm_num) (by norm_num) (by norm_num) (by norm_num) (by norm_num)

/-- The numeral `1e400` is beyond the doubles: its Number value is `Infinity`. -/
theorem numberOf_huge : numberOf (10 ^ 400) = .inf false := by
  have h1 : (2 : ℚ) ^ (1024 : ℤ) ≤ 10 ^ 400 := by
    have e1 : (2 : ℚ) ^ (1024 : ℤ) = 2 ^ (1024 : ℕ) := by
      rw [← zpow_natCast]; rfl
    have e2 : (2 : ℚ) ^ (1024 : ℕ) ≤ 2 ^ (3 * 400) :=
      pow_le_pow_right₀ (by norm_num) (by norm_num)
    have e3 : (2 : ℚ) ^ (3 * 400) = (2 ^ 3) ^ 400 := pow_mul 2 3 400
    have e4 : ((2 : ℚ) ^ 3) ^ 400 ≤ 10 ^ 400 :=
      pow_le_pow_left₀ (by norm_num) (by norm_num) 400
    rw [e1]
    exact e2.trans (e3.le.trans e4)
  have h2 : |(10 : ℚ) ^ 400| = 10 ^ 400 := abs_of_nonneg (by positivity)
  have h3 : ¬ (10 : ℚ) ^ 400 < 0 := not_lt.2 (by positivity)
  rw [numberOf, roundDouble_overflow _ (by rw [h2]; exact h1)]
  simp [h3]

/-! ### The first scenario: weights 10, scores 100 and 0 -/

theorem fruitImpact_texas : fruitImpact texasData texasSelection = .num 10 := by
  show (roundDouble 100 - JSNum.num 50) * (roundDouble 10).div50 = .num 10
  rw [roundDouble_of_nat 100 100 (by norm_num) (by norm_num), JSNum.num_sub_num,
    roundDouble_of_nat (100 - 50) 50 (by norm_num) (by norm_num),
    roundDouble_of_nat 10 10 (by norm_num) (by norm_num), JSNum.div50_num,
    show (10 / 50 : ℚ) = 1 / 5 by norm_num, roundDouble_fifth, JSNum.num_mul_num]
  exact roundDouble_eval _ 3 5629499534213120 _ (by norm_num) (by norm_num)
    (by norm_num) (by norm_num) (by norm_num) (by norm_num) (by norm_num)

theorem exerciseImpact_texas : exerciseImpact texasData texasSelection = .num (-10) := by
  show (roundDouble 0 - JSNum.num 50) * (roundDouble 10).div50 = .num (-10)
  rw [roundDouble_zero, JSNum.num_sub_num,
    roundDouble_of_neg_nat (0 - 50) 50 (by norm_num) (by norm_num),
    roundDouble_of_nat 10 10 (by norm_num) (by norm_num), JSNum.div50_num,
    show (10 / 50 : ℚ) = 1 / 5 by norm_num, roundDouble_fifth, JSNum.num_mul_num]
  refine roundDouble_eval_neg _ (50 * (3602879701896397 / 18014398509481984)) 10
    (by norm_num) ?_
  exact roundDouble_eval _ 3 5629499534213120 _ (by norm_num) (by norm_num)
    (by norm_num) (by norm_num) (by norm_num) (by norm_num) (by norm_num)

/-- The sum of the first scenario, from the base rate 30. -/
theorem sum_texas :
    JSNum.num 30 + fruitImpact texasData texasSelection
      + exerciseImpact texasData texasSelection = .num 30 := by
  rw [fruitImpact_texas, exerciseImpact_texas, JSNum.num_add_num,
    roundDouble_of_nat (30 + 10) 40 (by norm_num) (by norm_num), JSNum.num_add_num,
    roundDouble_of_nat (30 + 10 + -10) 30 (by norm_num) (by norm_num)]
  congr 1
  norm_num

/-! ### Weights 2.5, scores 53 and 50 -/

theorem fruitImpact_half :
    fruitImpact halfWeightData fiftyThreeSelection
      = .num (1351079888211149 / 9007199254740992) := by
  show (roundDouble 53 - JSNum.num 50) * (roundDouble (5 / 2)).div50 = _
  rw [roundDouble_of_nat 53 53 (by norm_num) (by norm_num), JSNum.num_sub_num,
    roundDouble_of_nat (53 - 50) 3 (by norm_num) (by norm_num),
    roundDouble_eval (5 / 2) 1 5629499534213120 (5 / 2) (by norm_num) (by norm_num)
      (by norm_num) (by norm_num) (by norm_num) (by norm_num) (by norm_num),
    JSNum.div50_num, show (5 / 2 / 50 : ℚ) = 1 / 20 by norm_num, roundDouble_twentieth,
    JSNum.num_mul_num]
  exact roundDouble_eval_tie _ (-3) 5404319552844595 _ (by norm_num) (by norm_num)
    (by norm_num) (by norm_num) (by norm_num) (by norm_num) (by norm_num)

theorem exerciseImpact_half :
    exerciseImpact halfWeightData fiftyThreeSelection = .num 0 := by
  show (roundDouble 50 - JSNum.num 50) * (roundDouble (5 / 2)).div50 = _
  rw [roundDouble_of_nat 50 50 (by norm_num) (by norm_num), JSNum.num_sub_num,
    show (50 - 50 : ℚ) = 0 by norm_num, roundDouble_zero,
    roundDouble_eval (5 / 2) 1 5629499534213120 (5 / 2) (by norm_num) (by norm_num)
      (by norm_num) (by norm_num) (by norm_num) (by norm_num) (by norm_num),
    JSNum.div50_num, show (5 / 2 / 50 : ℚ) = 1 / 20 by norm_num, roundDouble_twentieth,
    JSNum.num_mul_num, zero_mul, roundDouble_zero]

/-- The sum with weights 2.5 and scores 53 and 50, from the base rate 30: the
double just below 30.15. -/
theorem sum_half :
    JSNum.num 30 + fruitImpact halfWeightData fiftyThreeSelection
      + exerciseImpact halfWeightData fiftyThreeSelection
      = .num (4243235273913139 / 140737488355328) := by
  rw [fruitImpact_half, exerciseImpact_half, JSNum.num_add_num,
    roundDouble_eval (30 + 1351079888211149 / 9007199254740992) 4 8486470547826278
      (4243235273913139 / 140737488355328) (by norm_num) (by norm_num)
      (by norm_num) (by norm_num) (by norm_num) (by norm_num) (by norm_num),
    JSNum.num_add_num]
  exact roundDouble_eval _ 4 8486470547826278 _ (by norm_num) (by norm_num)
    (by norm_num) (by norm_num) (by norm_num) (by norm_num) (by norm_num)

theorem toFixed_sum_half :
    toFixed (.num (4243235273913139 / 140737488355328)) = .text "30.1" := by
  rw [toFixed_of_tenths _ 301 (by norm_num) (by norm_num) (by norm_num) (by norm_num)]
  decide

/-- The exactly computed sum 30.15 would print as `30.2`. -/
theorem toFixed_exact_half :
    toFixed (.num (30 + (53 - 50) * (5 / 2 / 50) + (50 - 50) * (5 / 2 / 50))) = .text "30.2" := by
  rw [toFixed_of_tenths _ 302 (by norm_num) (by norm_num) (by norm_num) (by norm_num)]
  decide

/-! ### Weight 1, fruit scores 50 and 51 -/

theorem impact_unit_fifty :
    (roundDouble 50 - JSNum.num 50) * (roundDouble 1).div50 = .num 0 := by
  rw [roundDouble_of_nat 50 50 (by norm_num) (by norm_num), JSNum.num_sub_num,
    show (50 - 50 : ℚ) = 0 by norm_num, roundDouble_zero,
    roundDouble_of_nat 1 1 (by norm_num) (by norm_num), JSNum.div50_num,
    roundDouble_fiftieth, JSNum.num_mul_num, zero_mul, roundDouble_zero]

theorem impact_unit_fiftyOne :
    (roundDouble (50 + 1) - JSNum.num 50) * (roundDouble 1).div50
      = .num (5764607523034235 / 288230376151711744) := by
  rw [roundDouble_of_nat (50 + 1) 51 (by norm_num) (by norm_num), JSNum.num_sub_num,
    roundDouble_of_nat (50 + 1 - 50) 1 (by norm_num) (by norm_num),
    roundDouble_of_nat 1 1 (by norm_num) (by norm_num), JSNum.div50_num,
    roundDouble_fiftieth, JSNum.num_mul_num]
  exact roundDouble_eval _ (-6) 5764607523034235 _ (by norm_num) (by norm_num)
    (by norm_num) (by norm_num) (by norm_num) (by norm_num) (by norm_num)

/-- The sum with weight 1 at the scores 50 and 50, from the base rate 30. -/
theorem sum_unit_fifty :
    JSNum.num 30 + fruitImpact unitWeightData initialFormData
      + exerciseImpact unitWeightData initialFormData = .num 30 := by
  show JSNum.num 30 + (roundDouble 50 - JSNum.num 50) * (roundDouble 1).div50
    + (roundDouble 50 - JSNum.num 50) * (roundDouble 1).div50 = .num 30
  rw [impact_unit_fifty, JSNum.num_add_num,
    roundDouble_of_nat (30 + 0) 30 (by norm_num) (by norm_num), JSNum.num_add_num,
    roundDouble_of_nat (30 + 0 + 0) 30 (by norm_num) (by norm_num)]
  congr 1
  norm_num

/-- The sum with weight 1 at the scores 51 and 50, from the base rate 30: the
double just below 30.02. -/
theorem sum_unit_fiftyOne :
    JSNum.num 30
      + fruitImpact unitWeightData
          { initialFormData with fruitScore := initialFormData.fruitScore + 1 }
      + exerciseImpact unitWeightData
          { initialFormData with fruitScore := initialFormData.fruitScore + 1 }
      = .num (8449878800853893 / 281474976710656) := by
  show JSNum.num 30 + (roundDouble (50 + 1) - JSNum.num 50) * (roundDouble 1).div50
    + (roundDouble 50 - JSNum.num 50) * (roundDouble 1).div50 = _
  rw [impact_unit_fifty, impact_unit_fiftyOne, JSNum.num_add_num,
    roundDouble_eval (30 + 5764607523034235 / 288230376151711744) 4 8449878800853893
      (8449878800853893 / 281474976710656) (by norm_num) (by norm_num)
      (by norm_num) (by norm_num) (by norm_num) (by norm_num) (by norm_num),
    JSNum.num_add_num]
  exact roundDouble_eval _ 4 8449878800853893 _ (by norm_num) (by norm_num)
    (by norm_num) (by norm_num) (by norm_num) (by norm_num) (by norm_num)

theorem toFixed_sum_unit_fiftyOne :
    toFixed (.num (8449878800853893 / 281474976710656)) = .text "30.0" := by
  rw [toFixed_of_tenths _ 300 (by norm_num) (by norm_num) (by norm_num) (by norm_num)]
  decide

/-! ### Weight -10, scores 100 and 50 -/

theorem fruitImpact_minusTen :
    fruitImpact negativeWeightData { initialFormData with fruitScore := 100 } = .num (-10) := by
  show (roundDouble 100 - JSNum.num 50) * (roundDouble (-10)).div50 = .num (-10)
  rw [roundDouble_of_nat 100 100 (by norm_num) (by norm_num), JSNum.num_sub_num,
    roundDouble_of_nat (100 - 50) 50 (by norm_num) (by norm_num),
    roundDouble_of_neg_nat (-10) 10 (by norm_num) (by norm_num), JSNum.div50_num,
    roundDouble_eval_neg (-10 / 50) (1 / 5) _ (by norm_num) roundDouble_fifth,
    JSNum.num_mul_num]
  refine roundDouble_eval_neg _ (50 * (3602879701896397 / 18014398509481984)) 10
    (by norm_num) ?_
  exact roundDouble_eval _ 3 5629499534213120 _ (by norm_num) (by norm_num)
    (by norm_num) (by norm_num) (by norm_num) (by norm_num) (by norm_num)

theorem exerciseImpact_minusTen :
    exerciseImpact negativeWeightData { initialFormData with fruitScore := 100 } = .num 0 := by
  show (roundDouble 50 - JSNum.num 50) * (roundDouble (-10)).div50 = .num 0
  rw [roundDouble_of_nat 50 50 (by norm_num) (by norm_num), JSNum.num_sub_num,
    show (50 - 50 : ℚ) = 0 by norm_num, roundDouble_zero,
    roundDouble_of_neg_nat (-10) 10 (by norm_num) (by norm_num), JSNum.div50_num,
    roundDouble_eval_neg (-10 / 50) (1 / 5) _ (by norm_num) roundDouble_fifth,
    JSNum.num_mul_num, zero_mul, roundDouble_zero]

/-- The sum with weight -10 at the scores 100 and 50, from the base rate 30. -/
theorem sum_minusTen :
    JSNum.num 30 + fruitImpact negativeWeightData { initialFormData with fruitScore := 100 }
      + exerciseImpact negativeWeightData { initialFormData with fruitScore := 100 }
      = .num 20 := by
  rw [fruitImpact_minusTen, exerciseImpact_minusTen, JSNum.num_add_num,
    roundDouble_of_nat (30 + -10) 20 (by norm_num) (by norm_num), JSNum.num_add_num,
    roundDouble_of_nat (30 + -10 + 0) 20 (by norm_num) (by norm_num)]
  congr 1
  norm_num

theorem toFixed_six : toFixed (.num 6) = .text "6.0" := by
  rw [toFixed_of_tenths 6 60 (by norm_num) (by norm_num) (by norm_num) (by norm_num)]
  decide

theorem toFixed_twenty : toFixed (.num 20) = .text "20.0" := by
  rw [toFixed_of_tenths 20 200 (by norm_num) (by norm_num) (by norm_num) (by norm_num)]
  decide

/-! ## The rounding error of the sum -/

/-- The nearest double of a number of magnitude at most `B = 2^k`: finite, of
magnitude at most `B`, and within `E = 2^(k-53)` of the number. -/
theorem roundDouble_bound (x : ℚ) (k : ℤ) (B E : ℚ) (hk1 : -1022 ≤ k) (hk2 : k ≤ 1023)
    (hB : (2 : ℚ) ^ k = B) (hE : (2 : ℚ) ^ (k - 53) = E) (h : |x| ≤ B) :
    ∃ y, roundDouble x = .num y ∧ |y| ≤ B ∧ |y - x| ≤ E := by
  rw [← hB] at h
  obtain ⟨y, h1, h2, h3⟩ := roundDouble_of_abs_le x k hk1 hk2 h
  exact ⟨y, h1, hB ▸ h2, hE ▸ h3⟩

/-- One lifestyle adjustment, for a score in `[0, 100]` and a weight of
magnitude at most 1024: a finite double within `2^(-37)` of the exact product. -/
theorem impact_error (s w : ℚ) (hs0 : 0 ≤ s) (hs1 : s ≤ 100) (hw : |w| ≤ 1024) :
    ∃ i : ℚ, (numberOf s - JSNum.num 50) * (numberOf w).div50 = .num i
      ∧ |i| ≤ 8192 ∧ |i - (s - 50) * (w / 50)| ≤ 1 / 2 ^ 37 := by
  obtain ⟨S, hS, hSb, hSe⟩ := roundDouble_bound s 7 128 (1 / 2 ^ 46) (by norm_num)
    (by norm_num) (by norm_num) (by norm_num) (by rw [abs_le]; constructor <;> linarith)
  have hSb' := abs_le.1 hSb
  obtain ⟨X, hX, hXb, hXe⟩ := roundDouble_bound (S - 50) 8 256 (1 / 2 ^ 45) (by norm_num)
    (by norm_num) (by norm_num) (by norm_num) (by rw [abs_le]; constructor <;> linarith)
  obtain ⟨W, hW, hWb, hWe⟩ := roundDouble_bound w 10 1024 (1 / 2 ^ 43) (by norm_num)
    (by norm_num) (by norm_num) (by norm_num) hw
  have hWb' := abs_le.1 hWb
  obtain ⟨D, hD, hDb, hDe⟩ := roundDouble_bound (W / 50) 5 32 (1 / 2 ^ 48) (by norm_num)
    (by norm_num) (by norm_num) (by norm_num) (by rw [abs_le]; constructor <;> linarith)
  have hXD : |X * D| ≤ 8192 := by
    rw [abs_mul]
    calc |X| * |D| ≤ 256 * 32 := mul_le_mul hXb hDb (abs_nonneg _) (by norm_num)
      _ = 8192 := by norm_num
  obtain ⟨I, hI, hIb, hIe⟩ := roundDouble_bound (X * D) 13 8192 (1 / 2 ^ 40) (by norm_num)
    (by norm_num) (by norm_num) (by norm_num) hXD
  refine ⟨I, ?_, hIb, ?_⟩
  · rw [numberOf, numberOf, hS, JSNum.num_sub_num, hX, hW, JSNum.div50_num, hD,
      JSNum.num_mul_num, hI]
  · have hd : |D - w / 50| ≤ 1 / 2 ^ 48 + 1 / 2 ^ 43 / 50 := by
      have e : D - w / 50 = (D - W / 50) + (W - w) / 50 := by ring
      rw [e]
      refine le_trans (abs_add _ _) (add_le_add hDe ?_)
      rw [abs_div, abs_of_pos (by norm_num : (0 : ℚ) < 50)]
      exact div_le_div_of_nonneg_right hWe (by norm_num)
    have hx : |X - (s - 50)| ≤ 1 / 2 ^ 45 + 1 / 2 ^ 46 := by
      have e : X - (s - 50) = (X - (S - 50)) + (S - s) := by ring
      rw [e]
      exact le_trans (abs_add _ _) (add_le_add hXe hSe)
    have hw50 : |w / 50| ≤ 1024 / 50 := by
      rw [abs_div, abs_of_pos (by norm_num : (0 : ℚ) < 50)]
      exact div_le_div_of_nonneg_right hw (by norm_num)
    have h1 : |X * (D - w / 50)| ≤ 256 * (1 / 2 ^ 48 + 1 / 2 ^ 43 / 50) := by
      rw [abs_mul]
      exact mul_le_mul hXb hd (abs_nonneg _) (by norm_num)
    have h2 : |w / 50 * (X - (s - 50))| ≤ 1024 / 50 * (1 / 2 ^ 45 + 1 / 2 ^ 46) := by
      rw [abs_mul]
      exact mul_le_mul hw50 hx (abs_nonneg _) (by norm_num)
    have e : I - (s - 50) * (w / 50)
        = (I - X * D) + (X * (D - w / 50) + w / 50 * (X - (s - 50))) := by ring
    rw [e]
    refine le_trans (abs_add _ _) ?_
    refine le_trans (add_le_add hIe (le_trans (abs_add _ _) (add_le_add h1 h2))) ?_
    norm_num

/-- The sum of a base rate of magnitude at most 1024 and the two adjustments:
a finite double within `2^(-35)` of the exact sum. -/
theorem sum_error (B s e w₁ w₂ : ℚ) (hB : |B| ≤ 1024) (hs0 : 0 ≤ s) (hs1 : s ≤ 100)
    (he0 : 0 ≤ e) (he1 : e ≤ 100) (hw₁ : |w₁| ≤ 1024) (hw₂ : |w₂| ≤ 1024) :
    ∃ t : ℚ,
      JSNum.num B + (numberOf s - JSNum.num 50) * (numberOf w₁).div50
          + (numberOf e - JSNum.num 50) * (numberOf w₂).div50 = .num t
        ∧ |t - (B + (s - 50) * (w₁ / 50) + (e - 50) * (w₂ / 50))| ≤ 1 / 2 ^ 35 := by
  obtain ⟨i₁, h1, h1b, h1e⟩ := impact_error s w₁ hs0 hs1 hw₁
  obtain ⟨i₂, h2, h2b, h2e⟩ := impact_error e w₂ he0 he1 hw₂
  have hB' := abs_le.1 hB
  have h1b' := abs_le.1 h1b
  have h2b' := abs_le.1 h2b
  obtain ⟨T, hT, hTb, hTe⟩ := roundDouble_bound (B + i₁) 14 16384 (1 / 2 ^ 39) (by norm_num)
    (by norm_num) (by norm_num) (by norm_num) (by rw [abs_le]; constructor <;> linarith)
  have hTb' := abs_le.1 hTb
  obtain ⟨t, ht, _, hte⟩ := roundDouble_bound (T + i₂) 15 32768 (1 / 2 ^ 38) (by norm_num)
    (by norm_num) (by norm_num) (by norm_num) (by rw [abs_le]; constructor <;> linarith)
  refine ⟨t, ?_, ?_⟩
  · rw [h1, h2, JSNum.num_add_num, hT, JSNum.num_add_num, ht]
  · have e : t - (B + (s - 50) * (w₁ / 50) + (e - 50) * (w₂ / 50))
        = (t - (T + i₂)) + ((T - (B + i₁)) + ((i₁ - (s - 50) * (w₁ / 50))
          + (i₂ - (e - 50) * (w₂ / 50)))) := by ring
    rw [e]
    refine le_trans (abs_add _ _) ?_
    refine le_trans (add_le_add hte (le_trans (abs_add _ _)
      (add_le_add hTe (le_trans (abs_add _ _) (add_le_add h1e h2e))))) ?_
    norm_num

/-! ## Lemmas on the base-rate read -/

theorem Obj.read_of_own {α : Type} (o : Obj α) (k : String) (v : α) (h : o.get? k = some v) :
    o.read k = .own v := by
  simp [Obj.read, h]

theorem Obj.read_of_missing {α : Type} (o : Obj α) (k : String) (h : o.get? k = none)
    (hi : k ∉ objectPrototypeNames) : o.read k = .undefined := by
  simp [Obj.read, h, hi]

theorem Obj.read_of_inherited {α : Type} (o : Obj α) (k : String) (h : o.get? k = none)
    (hi : k ∈ objectPrototypeNames) : o.read k = .inherited := by
  simp [Obj.read, h, hi]

theorem baseRate_of_missing_state (r : List String → Except Unit Value) (ds : Dataset)
    (fd : FormData) (h : ds.demographics.get? fd.state = none)
    (hi : fd.state ∉ objectPrototypeNames) : baseRate r ds fd = .number (.num 30) := by
  simp [baseRate, baseRateTry, Obj.read_of_missing _ _ h hi]

theorem baseRate_of_missing_category (r : List String → Except Unit Value) (ds : Dataset)
    (fd : FormData) (categories : Obj (Obj ℚ))
    (hs : ds.demographics.get? fd.state = some categories)
    (hc : categories.get? fd.category = none) (hi : fd.category ∉ objectPrototypeNames) :
    baseRate r ds fd = .number (.num 30) := by
  simp [baseRate, baseRateTry, Obj.read_of_own _ _ _ hs, Obj.read_of_missing _ _ hc hi]

theorem baseRate_of_missing_group (r : List String → Except Unit Value) (ds : Dataset)
    (fd : FormData) (categories : Obj (Obj ℚ)) (groups : Obj ℚ)
    (hs : ds.demographics.get? fd.state = some categories)
    (hc : categories.get? fd.category = some groups) (hg : groups.get? fd.group = none)
    (hi : fd.group ∉ objectPrototypeNames) : baseRate r ds fd = .undefined := by
  simp [baseRate, baseRateTry, Obj.read_of_own _ _ _ hs, Obj.read_of_own _ _ _ hc,
    Obj.read_of_missing _ _ hg hi]

theorem baseRate_of_present (r : List String → Except Unit Value) (ds : Dataset)
    (fd : FormData) (categories : Obj (Obj ℚ)) (groups : Obj ℚ) (b : ℚ)
    (hs : ds.demographics.get? fd.state = some categories)
    (hc : categories.get? fd.category = some groups) (hg : groups.get? fd.group = some b) :
    baseRate r ds fd = .number (numberOf b) := by
  simp [baseRate, baseRateTry, Obj.read_of_own _ _ _ hs, Obj.read_of_own _ _ _ hc,
    Obj.read_of_own _ _ _ hg]

/-- The base rate found when the state is a name of `Object.prototype` only: the
outcome of the built-in reads, with the fallback 30 when they throw. -/
theorem baseRate_of_inherited_state (r : List String → Except Unit Value) (ds : Dataset)
    (fd : FormData) (v : Value) (h : ds.demographics.get? fd.state = none)
    (hi : fd.state ∈ objectPrototypeNames)
    (hr : r [fd.state, fd.category, fd.group] = .ok v) : baseRate r ds fd = v := by
  simp [baseRate, baseRateTry, Obj.read_of_inherited _ _ h hi, hr]

theorem calculateRisk_of_baseRate_number (r : List String → Except Unit Value) (ds : Dataset)
    (fd : FormData) (x : JSNum) (h : baseRate r ds fd = .number x) :
    calculateRisk r ds fd = .ok (toFixed (x + fruitImpact ds fd + exerciseImpact ds fd)) := by
  simp [calculateRisk, totalRisk, h]

theorem totalRisk_of_baseRate_number (r : List String → Except Unit Value) (ds : Dataset)
    (fd : FormData) (x : JSNum) (h : baseRate r ds fd = .number x) :
    totalRisk r ds fd = some (x + fruitImpact ds fd + exerciseImpact ds fd) := by
  simp [totalRisk, h]

theorem totalRisk_of_baseRate_undefined (r : List String → Except Unit Value) (ds : Dataset)
    (fd : FormData) (h : baseRate r ds fd = .undefined) : totalRisk r ds fd = some .nan := by
  simp [totalRisk, h]

/-- With the state and the category present and the group absent, the read does
not throw: the result is the text `NaN`. -/
theorem calculateRisk_of_missing_group (r : List String → Except Unit Value) (ds : Dataset)
    (fd : FormData) (categories : Obj (Obj ℚ)) (groups : Obj ℚ)
    (hs : ds.demographics.get? fd.state = some categories)
    (hc : categories.get? fd.category = some groups) (hg : groups.get? fd.group = none)
    (hi : fd.group ∉ objectPrototypeNames) :
    calculateRisk r ds fd = .ok (.text "NaN") := by
  simp only [calculateRisk, totalRisk_of_baseRate_undefined r ds fd
    (baseRate_of_missing_group r ds fd categories groups hs hc hg hi)]
  rfl

theorem numberOf_thirty : numberOf 30 = .num 30 :=
  roundDouble_of_nat 30 30 (by norm_num) (by norm_num)

/-- Adding zero to a number does not change it. -/
theorem JSNum.add_zero_of_numberOf (b : ℚ) : numberOf b + JSNum.num 0 = numberOf b := by
  unfold numberOf
  cases h : roundDouble b with
  | nan => rfl
  | inf s => rfl
  | num B =>
    rw [JSNum.num_add_num, add_zero]
    exact roundDouble_idem b B h

/-- At the score 50 the adjustment is zero for every finite weight. -/
theorem impact_neutral (w W : ℚ) (hW : numberOf w = .num W) :
    (numberOf 50 - JSNum.num 50) * (numberOf w).div50 = .num 0 := by
  have h50 : numberOf 50 = .num 50 := roundDouble_of_nat 50 50 (by norm_num) (by norm_num)
  have hlt := abs_lt_of_roundDouble w W hW
  have h2 : (2 : ℚ) ^ (1024 : ℤ) = 2 ^ (1023 : ℤ) * 2 := by
    rw [show (1024 : ℤ) = 1023 + 1 by norm_num, zpow_add_one₀ (by norm_num)]
  have hb : |W / 50| ≤ 2 ^ (1023 : ℤ) := by
    rw [abs_div, abs_of_pos (by norm_num : (0 : ℚ) < 50), div_le_iff₀ (by norm_num)]
    have hp : (0 : ℚ) < 2 ^ (1023 : ℤ) := by positivity
    linarith
  obtain ⟨D, hD, _, _⟩ := roundDouble_of_abs_le (W / 50) 1023 (by norm_num) (by norm_num) hb
  rw [h50, JSNum.num_sub_num, sub_self, roundDouble_zero, hW, JSNum.div50_num, hD,
    JSNum.num_mul_num, zero_mul, roundDouble_zero]

/-! ## Claims on `calculateRisk` -/

/-- C1, at a failing input: in the scenario dataset, the selection (Texas,
Age (years), 65+, 100, 0) names a group that is missing under an existing state
and category.  The result is the text `NaN`, not the text `30.0` that the
fallback base rate 30 with the two adjustments 10 and -10 would give, be the
sum computed exactly or in doubles. -/
theorem calculateRisk_missing_group_is_NaN :
    (∀ r, calculateRisk r texasData missingGroupSelection = .ok (.text "NaN"))
      ∧ toFixed (.num (30 + (missingGroupSelection.fruitScore - 50)
            * (texasData.model_weights.low_fruit / 50)
          + (missingGroupSelection.exerciseScore - 50)
            * (texasData.model_weights.no_exercise / 50))) = .text "30.0"
      ∧ toFixed (.num 30 + fruitImpact texasData missingGroupSelection
          + exerciseImpact texasData missingGroupSelection) = .text "30.0"
      ∧ (∀ r, calculateRisk r texasData missingGroupSelection
          ≠ .ok (toFixed (.num (30 + (missingGroupSelection.fruitScore - 50)
              * (texasData.model_weights.low_fruit / 50)
            + (missingGroupSelection.exerciseScore - 50)
              * (texasData.model_weights.no_exercise / 50)))))
      ∧ (∀ r, calculateRisk r texasData missingGroupSelection
          ≠ .ok (toFixed (.num 30 + fruitImpact texasData missingGroupSelection
              + exerciseImpact texasData missingGroupSelection))) := by
  have h1 : ∀ r, calculateRisk r texasData missingGroupSelection = .ok (.text "NaN") :=
    fun r => calculateRisk_of_missing_group r texasData missingGroupSelection
      texasCategories texasGroups rfl rfl rfl (by decide)
  have h2 : toFixed (.num (30 + (missingGroupSelection.fruitScore - 50)
            * (texasData.model_weights.low_fruit / 50)
          + (missingGroupSelection.exerciseScore - 50)
            * (texasData.model_weights.no_exercise / 50))) = .text "30.0" := by
    have e : (30 + (missingGroupSelection.fruitScore - 50)
            * (texasData.model_weights.low_fruit / 50)
          + (missingGroupSelection.exerciseScore - 50)
            * (texasData.model_weights.no_exercise / 50) : ℚ) = 30 := by
      norm_num [missingGroupSelection, texasSelection, texasData]
    rw [e, toFixed_thirty]
  have h3 : toFixed (.num 30 + fruitImpact texasData missingGroupSelection
      + exerciseImpact texasData missingGroupSelection) = .text "30.0" := by
    have e : JSNum.num 30 + fruitImpact texasData missingGroupSelection
        + exerciseImpact texasData missingGroupSelection = .num 30 := sum_texas
    rw [e, toFixed_thirty]
  refine ⟨h1, h2, h3, fun r hc => ?_, fun r hc => ?_⟩
  · rw [h1, h2] at hc
    exact absurd (FixedText.text.inj (Except.ok.inj hc)) (by decide)
  · rw [h1, h3] at hc
    exact absurd (FixedText.text.inj (Except.ok.inj hc)) (by decide)

/-- C2, as stated, fails.  With the unknown state `Nowhere`, both weights 2.5,
fruit score 53 and exercise score 50 the result is the text `30.1`, while the
sum 30 + 3 * (2.5 / 50) + 0 = 30.15 computed exactly prints as `30.2`.  And the
state `constructor` is not a key of `demographics` either, but the read finds
it in `Object.prototype`: in an engine where the text `Object.name` has length
6, category `name` and group `length` give the base rate 6 and the text `6.0`. -/
theorem calculateRisk_unknown_state_not_exact :
    halfWeightData.demographics.get? nowhereFiftyThreeSelection.state = none
      ∧ (∀ r, calculateRisk r halfWeightData nowhereFiftyThreeSelection = .ok (.text "30.1"))
      ∧ toFixed (.num (30 + (nowhereFiftyThreeSelection.fruitScore - 50)
            * (halfWeightData.model_weights.low_fruit / 50)
          + (nowhereFiftyThreeSelection.exerciseScore - 50)
            * (halfWeightData.model_weights.no_exercise / 50))) = .text "30.2"
      ∧ texasData.demographics.get? constructorSelection.state = none
      ∧ (∀ r : List String → Except Unit Value,
          r ["constructor", "name", "length"] = .ok (.number (.num 6)) →
            calculateRisk r texasData constructorSelection = .ok (.text "6.0")) := by
  refine ⟨rfl, fun r => ?_, toFixed_exact_half, rfl, fun r hr => ?_⟩
  · rw [calculateRisk_of_baseRate_number r _ _ (.num 30)
      (baseRate_of_missing_state r halfWeightData nowhereFiftyThreeSelection rfl (by decide))]
    have e : JSNum.num 30 + fruitImpact halfWeightData nowhereFiftyThreeSelection
        + exerciseImpact halfWeightData nowhereFiftyThreeSelection
        = .num (4243235273913139 / 140737488355328) := sum_half
    rw [e, toFixed_sum_half]
  · rw [calculateRisk_of_baseRate_number r _ _ (.num 6)
      (baseRate_of_inherited_state r texasData constructorSelection _ rfl (by decide) hr)]
    have h0 : (numberOf 50 - JSNum.num 50) * (numberOf 10).div50 = .num 0 :=
      impact_neutral 10 10 (roundDouble_of_nat 10 10 (by norm_num) (by norm_num))
    have e : JSNum.num 6 + fruitImpact texasData constructorSelection
        + exerciseImpact texasData constructorSelection = .num 6 := by
      show JSNum.num 6 + (numberOf 50 - JSNum.num 50) * (numberOf 10).div50
        + (numberOf 50 - JSNum.num 50) * (numberOf 10).div50 = .num 6
      rw [h0, JSNum.num_add_num, roundDouble_of_nat (6 + 0) 6 (by norm_num) (by norm_num),
        JSNum.num_add_num, roundDouble_of_nat (6 + 0 + 0) 6 (by norm_num) (by norm_num)]
      congr 1
      norm_num
    rw [e, toFixed_six]

/-- C2, amended: when the selected state is neither a key of `demographics` nor
a name inherited from `Object.prototype`, `calculateRisk` raises no error and
its result is `toFixed(1)` of the fallback base rate 30 plus the two lifestyle
adjustments, the sum being computed in double arithmetic; for weights of
magnitude at most 1024 and scores in [0, 100] that sum is a finite number
within `2^(-35)` of the exact value of
`30 + (fruitScore-50)*(low_fruit/50) + (exerciseScore-50)*(no_exercise/50)`. -/
theorem calculateRisk_unknown_state (r : List String → Except Unit Value) (ds : Dataset)
    (fd : FormData) (h : ds.demographics.get? fd.state = none)
    (hi : fd.state ∉ objectPrototypeNames) :
    calculateRisk r ds fd
        = .ok (toFixed (.num 30 + fruitImpact ds fd + exerciseImpact ds fd))
      ∧ (|ds.model_weights.low_fruit| ≤ 1024 → |ds.model_weights.no_exercise| ≤ 1024 →
          0 ≤ fd.fruitScore → fd.fruitScore ≤ 100 →
          0 ≤ fd.exerciseScore → fd.exerciseScore ≤ 100 →
          ∃ t : ℚ, JSNum.num 30 + fruitImpact ds fd + exerciseImpact ds fd = .num t
            ∧ |t - (30 + (fd.fruitScore - 50) * (ds.model_weights.low_fruit / 50)
                + (fd.exerciseScore - 50) * (ds.model_weights.no_exercise / 50))|
              ≤ 1 / 2 ^ 35) := by
  refine ⟨calculateRisk_of_baseRate_number r ds fd (.num 30)
    (baseRate_of_missing_state r ds fd h hi), ?_⟩
  intro hw₁ hw₂ hs0 hs1 he0 he1
  exact sum_error 30 fd.fruitScore fd.exerciseScore ds.model_weights.low_fruit
    ds.model_weights.no_exercise (by norm_num) hs0 hs1 he0 he1 hw₁ hw₂

/-- C2, witness: the state `Nowhere` with the scenario dataset gives the text
`30.0`. -/
theorem calculateRisk_unknown_state_witness :
    texasData.demographics.get? nowhereSelection.state = none
      ∧ nowhereSelection.state ∉ objectPrototypeNames
      ∧ (∀ r, calculateRisk r texasData nowhereSelection = .ok (.text "30.0")) := by
  refine ⟨rfl, by decide, fun r => ?_⟩
  rw [(calculateRisk_unknown_state r texasData nowhereSelection rfl (by decide)).1]
  have e : JSNum.num 30 + fruitImpact texasData nowhereSelection
      + exerciseImpact texasData nowhereSelection = .num 30 := sum_texas
  rw [e, toFixed_thirty]

/-- C3, as stated, fails: with base rate 30, both weights 2.5, fruit score 53
and exercise score 50, all three keys present, the result is the text `30.1`,
while the sum 30 + 3 * (2.5 / 50) + 0 = 30.15 computed exactly and rounded to
one decimal place is `30.2`. -/
theorem calculateRisk_present_not_exact :
    halfWeightData.demographics.get? fiftyThreeSelection.state = some texasCategories
      ∧ texasCategories.get? fiftyThreeSelection.category = some texasGroups
      ∧ texasGroups.get? fiftyThreeSelection.group = some 30
      ∧ (∀ r, calculateRisk r halfWeightData fiftyThreeSelection = .ok (.text "30.1"))
      ∧ toFixed (.num (30 + (fiftyThreeSelection.fruitScore - 50)
            * (halfWeightData.model_weights.low_fruit / 50)
          + (fiftyThreeSelection.exerciseScore - 50)
            * (halfWeightData.model_weights.no_exercise / 50))) = .text "30.2" := by
  refine ⟨rfl, rfl, rfl, fun r => ?_, toFixed_exact_half⟩
  rw [calculateRisk_of_baseRate_number r _ _ (numberOf 30)
    (baseRate_of_present r halfWeightData fiftyThreeSelection texasCategories texasGroups 30
      rfl rfl rfl), numberOf_thirty, sum_half, toFixed_sum_half]

/-- C3, amended: when the selected state, category and group are all present,
with base rate `b`, the result is `toFixed(1)` of `b` plus the two lifestyle
adjustments, the sum being computed in double arithmetic and not clamped: when
it is a finite number `t` below `10^21` in magnitude, the text is the sign of
`t` followed by the tenth nearest to its magnitude; for a base rate and weights
of magnitude at most 1024 and scores in [0, 100] it is a finite number within
`2^(-34)` of the exact value of
`b + (fruitScore-50)*(low_fruit/50) + (exerciseScore-50)*(no_exercise/50)`. -/
theorem calculateRisk_present (r : List String → Except Unit Value) (ds : Dataset)
    (fd : FormData) (categories : Obj (Obj ℚ)) (groups : Obj ℚ) (b : ℚ)
    (hs : ds.demographics.get? fd.state = some categories)
    (hc : categories.get? fd.category = some groups) (hg : groups.get? fd.group = some b) :
    calculateRisk r ds fd
        = .ok (toFixed (numberOf b + fruitImpact ds fd + exerciseImpact ds fd))
      ∧ (∀ t : ℚ, numberOf b + fruitImpact ds fd + exerciseImpact ds fd = .num t →
          |t| < 10 ^ 21 →
          ∃ n : ℕ,
            calculateRisk r ds fd
                = .ok (.text ((if t < 0 then "-" else "") ++ toString (n / 10) ++ "."
                    ++ toString (n % 10)))
              ∧ |(n : ℚ) / 10 - abs t| ≤ 1 / 20)
      ∧ (|b| ≤ 1024 → |ds.model_weights.low_fruit| ≤ 1024 →
          |ds.model_weights.no_exercise| ≤ 1024 →
          0 ≤ fd.fruitScore → fd.fruitScore ≤ 100 →
          0 ≤ fd.exerciseScore → fd.exerciseScore ≤ 100 →
          ∃ t : ℚ, numberOf b + fruitImpact ds fd + exerciseImpact ds fd = .num t
            ∧ |t - (b + (fd.fruitScore - 50) * (ds.model_weights.low_fruit / 50)
                + (fd.exerciseScore - 50) * (ds.model_weights.no_exercise / 50))|
              ≤ 1 / 2 ^ 34) := by
  have h : calculateRisk r ds fd
      = .ok (toFixed (numberOf b + fruitImpact ds fd + exerciseImpact ds fd)) :=
    calculateRisk_of_baseRate_number r ds fd (numberOf b)
      (baseRate_of_present r ds fd categories groups b hs hc hg)
  refine ⟨h, ?_, ?_⟩
  · intro t ht hlt
    obtain ⟨n, hn, hne⟩ := toFixed_rounds t hlt
    exact ⟨n, by rw [h, ht, hn], hne⟩
  · intro hb hw₁ hw₂ hs0 hs1 he0 he1
    obtain ⟨B, hB, hBb, hBe⟩ := roundDouble_bound b 10 1024 (1 / 2 ^ 43) (by norm_num)
      (by norm_num) (by norm_num) (by norm_num) hb
    obtain ⟨t, ht, hte⟩ := sum_error B fd.fruitScore fd.exerciseScore
      ds.model_weights.low_fruit ds.model_weights.no_exercise hBb hs0 hs1 he0 he1 hw₁ hw₂
    refine ⟨t, ?_, ?_⟩
    · rw [numberOf, hB]; exact ht
    · have e : t - (b + (fd.fruitScore - 50) * (ds.model_weights.low_fruit / 50)
            + (fd.exerciseScore - 50) * (ds.model_weights.no_exercise / 50))
          = (t - (B + (fd.fruitScore - 50) * (ds.model_weights.low_fruit / 50)
            + (fd.exerciseScore - 50) * (ds.model_weights.no_exercise / 50))) + (B - b) := by
        ring
      rw [e]
      refine le_trans (abs_add _ _) (le_trans (add_le_add hte hBe) ?_)
      norm_num

/-- C3, witness: the first scenario, base rate 30, both weights 10, fruit score
100 and exercise score 0, gives the text `30.0`. -/
theorem calculateRisk_present_witness :
    texasData.demographics.get? texasSelection.state = some texasCategories
      ∧ texasCategories.get? texasSelection.category = some texasGroups
      ∧ texasGroups.get? texasSelection.group = some 30
      ∧ (∀ r, calculateRisk r texasData texasSelection = .ok (.text "30.0")) := by
  refine ⟨rfl, rfl, rfl, fun r => ?_⟩
  rw [(calculateRisk_present r texasData texasSelection texasCategories texasGroups 30
    rfl rfl rfl).1, numberOf_thirty, sum_texas, toFixed_thirty]

/-- C4, as stated, fails: a weight whose numeral is beyond the doubles, such as
`1e400`, is `Infinity`; at the neutral scores 50 and 50 the fruit adjustment is
then zero times `Infinity`, which is `NaN`, and the result is the text `NaN`
and not the stored base rate 30, which prints as `30.0`. -/
theorem calculateRisk_neutral_infinite_weight :
    hugeWeightData.demographics.get? initialFormData.state = some texasCategories
      ∧ texasCategories.get? initialFormData.category = some texasGroups
      ∧ texasGroups.get? initialFormData.group = some 30
      ∧ initialFormData.fruitScore = 50
      ∧ initialFormData.exerciseScore = 50
      ∧ (∀ r, calculateRisk r hugeWeightData initialFormData = .ok (.text "NaN"))
      ∧ toFixed (numberOf 30) = .text "30.0" := by
  refine ⟨rfl, rfl, rfl, rfl, rfl, fun r => ?_, by rw [numberOf_thirty, toFixed_thirty]⟩
  rw [calculateRisk_of_baseRate_number r _ _ (numberOf 30)
    (baseRate_of_present r hugeWeightData initialFormData texasCategories texasGroups 30
      rfl rfl rfl)]
  have e : fruitImpact hugeWeightData initialFormData = .nan := by
    show (numberOf 50 - JSNum.num 50) * (numberOf (10 ^ 400)).div50 = .nan
    have h50 : numberOf 50 = .num 50 := roundDouble_of_nat 50 50 (by norm_num) (by norm_num)
    rw [h50, JSNum.num_sub_num, sub_self, roundDouble_zero, numberOf_huge]
    rfl
  rw [e, JSNum.add_nan, JSNum.nan_add]
  rfl

/-- C4, amended (neutrality): when the selected state, category and group are
all present, with base rate `b`, both scores are 50 and both weights are finite
numbers, the result is the stored base rate formatted by `toFixed(1)`, whatever
the two finite weights are. -/
theorem calculateRisk_neutral (r : List String → Except Unit Value) (ds : Dataset)
    (fd : FormData) (categories : Obj (Obj ℚ)) (groups : Obj ℚ) (b W₁ W₂ : ℚ)
    (hs : ds.demographics.get? fd.state = some categories)
    (hc : categories.get? fd.category = some groups) (hg : groups.get? fd.group = some b)
    (hf : fd.fruitScore = 50) (he : fd.exerciseScore = 50)
    (hw₁ : numberOf ds.model_weights.low_fruit = .num W₁)
    (hw₂ : numberOf ds.model_weights.no_exercise = .num W₂) :
    calculateRisk r ds fd = .ok (toFixed (numberOf b)) := by
  rw [calculateRisk_of_baseRate_number r ds fd (numberOf b)
    (baseRate_of_present r ds fd categories groups b hs hc hg)]
  have e₁ : fruitImpact ds fd = .num 0 := by
    unfold fruitImpact
    rw [hf]
    exact impact_neutral _ W₁ hw₁
  have e₂ : exerciseImpact ds fd = .num 0 := by
    unfold exerciseImpact
    rw [he]
    exact impact_neutral _ W₂ hw₂
  rw [e₁, e₂, JSNum.add_zero_of_numberOf, JSNum.add_zero_of_numberOf]

/-- C4, witness: the initial form state with the scenario dataset, whose
weights are both 10, gives the text `30.0`. -/
theorem calculateRisk_neutral_witness :
    texasData.demographics.get? initialFormData.state = some texasCategories
      ∧ texasCategories.get? initialFormData.category = some texasGroups
      ∧ texasGroups.get? initialFormData.group = some 30
      ∧ initialFormData.fruitScore = 50
      ∧ initialFormData.exerciseScore = 50
      ∧ numberOf texasData.model_weights.low_fruit = .num 10
      ∧ numberOf texasData.model_weights.no_exercise = .num 10
      ∧ (∀ r, calculateRisk r texasData initialFormData = .ok (.text "30.0")) := by
  have hw : numberOf 10 = .num 10 := roundDouble_of_nat 10 10 (by norm_num) (by norm_num)
  refine ⟨rfl, rfl, rfl, rfl, rfl, hw, hw, fun r => ?_⟩
  rw [calculateRisk_neutral r texasData initialFormData texasCategories texasGroups 30 10 10
    rfl rfl rfl rfl rfl hw hw, numberOf_thirty, toFixed_thirty]

/-- C5, as stated, fails: with base rate 30 and weight 1, raising the fruit
score from 50 to 51 leaves the result at the text `30.0`, while the claimed
increase `1 * low_fruit / 50` is not zero. -/
theorem calculateRisk_increment_not_exact :
    (∀ r, calculateRisk r unitWeightData initialFormData = .ok (.text "30.0"))
      ∧ (∀ r, calculateRisk r unitWeightData
          { initialFormData with fruitScore := initialFormData.fruitScore + 1 }
            = .ok (.text "30.0"))
      ∧ (1 : ℚ) * unitWeightData.model_weights.low_fruit / 50 ≠ 0 := by
  refine ⟨fun r => ?_, fun r => ?_, by norm_num [unitWeightData]⟩
  · rw [calculateRisk_of_baseRate_number r _ _ (numberOf 30)
      (baseRate_of_present r unitWeightData initialFormData texasCategories texasGroups 30
        rfl rfl rfl), numberOf_thirty, sum_unit_fifty, toFixed_thirty]
  · rw [calculateRisk_of_baseRate_number r _ _ (numberOf 30)
      (baseRate_of_present r unitWeightData
        { initialFormData with fruitScore := initialFormData.fruitScore + 1 }
        texasCategories texasGroups 30 rfl rfl rfl),
      numberOf_thirty, sum_unit_fiftyOne, toFixed_sum_unit_fiftyOne]

/-- C5, amended: for a numeric base rate and weights of magnitude at most 1024
and scores that stay in [0, 100], the sum `totalRisk`, before `toFixed(1)` is
applied, is a finite number, and raising the fruit score by `Δ` raises it by
`Δ * low_fruit / 50` up to `2^(-34)`, raising the exercise score by `Δ` raises
it by `Δ * no_exercise / 50` up to `2^(-34)`: the sums are computed in double
arithmetic and the increase is not exact.  The result of `calculateRisk` is
that sum formatted by `toFixed(1)`. -/
theorem totalRisk_increment (r : List String → Except Unit Value) (ds : Dataset)
    (fd : FormData) (Δ B : ℚ) (hb : baseRate r ds fd = .number (.num B)) (hB : |B| ≤ 1024)
    (hw₁ : |ds.model_weights.low_fruit| ≤ 1024) (hw₂ : |ds.model_weights.no_exercise| ≤ 1024)
    (hs0 : 0 ≤ fd.fruitScore) (hs1 : fd.fruitScore ≤ 100)
    (he0 : 0 ≤ fd.exerciseScore) (he1 : fd.exerciseScore ≤ 100)
    (hs0' : 0 ≤ fd.fruitScore + Δ) (hs1' : fd.fruitScore + Δ ≤ 100)
    (he0' : 0 ≤ fd.exerciseScore + Δ) (he1' : fd.exerciseScore + Δ ≤ 100) :
    ∃ t t₁ t₂ : ℚ,
      totalRisk r ds fd = some (.num t)
        ∧ totalRisk r ds { fd with fruitScore := fd.fruitScore + Δ } = some (.num t₁)
        ∧ totalRisk r ds { fd with exerciseScore := fd.exerciseScore + Δ } = some (.num t₂)
        ∧ |t₁ - t - Δ * ds.model_weights.low_fruit / 50| ≤ 1 / 2 ^ 34
        ∧ |t₂ - t - Δ * ds.model_weights.no_exercise / 50| ≤ 1 / 2 ^ 34
        ∧ calculateRisk r ds fd = .ok (toFixed (.num t)) := by
  obtain ⟨t, ht, hte⟩ := sum_error B fd.fruitScore fd.exerciseScore
    ds.model_weights.low_fruit ds.model_weights.no_exercise hB hs0 hs1 he0 he1 hw₁ hw₂
  obtain ⟨t₁, ht₁, hte₁⟩ := sum_error B (fd.fruitScore + Δ) fd.exerciseScore
    ds.model_weights.low_fruit ds.model_weights.no_exercise hB hs0' hs1' he0 he1 hw₁ hw₂
  obtain ⟨t₂, ht₂, hte₂⟩ := sum_error B fd.fruitScore (fd.exerciseScore + Δ)
    ds.model_weights.low_fruit ds.model_weights.no_exercise hB hs0 hs1 he0' he1' hw₁ hw₂
  have hb₁ : baseRate r ds { fd with fruitScore := fd.fruitScore + Δ } = .number (.num B) := hb
  have hb₂ : baseRate r ds { fd with exerciseScore := fd.exerciseScore + Δ }
      = .number (.num B) := hb
  refine ⟨t, t₁, t₂, ?_, ?_, ?_, ?_, ?_, ?_⟩
  · rw [totalRisk_of_baseRate_number r ds fd _ hb]; exact congrArg some ht
  · rw [totalRisk_of_baseRate_number r ds _ _ hb₁]; exact congrArg some ht₁
  · rw [totalRisk_of_baseRate_number r ds _ _ hb₂]; exact congrArg some ht₂
  · have e : t₁ - t - Δ * ds.model_weights.low_fruit / 50
        = (t₁ - (B + (fd.fruitScore + Δ - 50) * (ds.model_weights.low_fruit / 50)
            + (fd.exerciseScore - 50) * (ds.model_weights.no_exercise / 50)))
          - (t - (B + (fd.fruitScore - 50) * (ds.model_weights.low_fruit / 50)
            + (fd.exerciseScore - 50) * (ds.model_weights.no_exercise / 50))) := by ring
    rw [e]
    refine le_trans (abs_sub _ _) (le_trans (add_le_add hte₁ hte) ?_)
    norm_num
  · have e : t₂ - t - Δ * ds.model_weights.no_exercise / 50
        = (t₂ - (B + (fd.fruitScore - 50) * (ds.model_weights.low_fruit / 50)
            + (fd.exerciseScore + Δ - 50) * (ds.model_weights.no_exercise / 50)))
          - (t - (B + (fd.fruitScore - 50) * (ds.model_weights.low_fruit / 50)
            + (fd.exerciseScore - 50) * (ds.model_weights.no_exercise / 50))) := by ring
    rw [e]
    refine le_trans (abs_sub _ _) (le_trans (add_le_add hte₂ hte) ?_)
    norm_num
  · rw [calculateRisk_of_baseRate_number r ds fd _ hb]
    exact congrArg (fun x => Except.ok (toFixed x)) ht

/-- C5, witness: the initial form state with the scenario dataset and the
increment 1. -/
theorem totalRisk_increment_witness :
    |(30 : ℚ)| ≤ 1024
      ∧ |texasData.model_weights.low_fruit| ≤ 1024
      ∧ |texasData.model_weights.no_exercise| ≤ 1024
      ∧ (∀ r, baseRate r texasData initialFormData = .number (.num 30))
      ∧ (∀ r, ∃ t t₁ t₂ : ℚ,
          totalRisk r texasData initialFormData = some (.num t)
            ∧ totalRisk r texasData
                { initialFormData with fruitScore := initialFormData.fruitScore + 1 }
                = some (.num t₁)
            ∧ totalRisk r texasData
                { initialFormData with exerciseScore := initialFormData.exerciseScore + 1 }
                = some (.num t₂)
            ∧ |t₁ - t - 1 * texasData.model_weights.low_fruit / 50| ≤ 1 / 2 ^ 34
            ∧ |t₂ - t - 1 * texasData.model_weights.no_exercise / 50| ≤ 1 / 2 ^ 34
            ∧ calculateRisk r texasData initialFormData = .ok (toFixed (.num t))) := by
  have hb : ∀ r, baseRate r texasData initialFormData = .number (.num 30) := fun r => by
    rw [baseRate_of_present r texasData initialFormData texasCategories texasGroups 30
      rfl rfl rfl, numberOf_thirty]
  refine ⟨by norm_num, by norm_num [texasData], by norm_num [texasData], hb, fun r => ?_⟩
  exact totalRisk_increment r texasData initialFormData 1 30 (hb r) (by norm_num)
    (by norm_num [texasData]) (by norm_num [texasData])
    (by norm_num [initialFormData]) (by norm_num [initialFormData])
    (by norm_num [initialFormData]) (by norm_num [initialFormData])
    (by norm_num [initialFormData]) (by norm_num [initialFormData])
    (by norm_num [initialFormData]) (by norm_num [initialFormData])

/-! ## The lifestyle adjustments -/

/-- C6, at a failing input: with both weights -10, base rate 30, fruit score
100 and exercise score 50, the fruit adjustment is -10: the score above 50
lowers the risk, the sum being 20 and the result `20.0`, below the base rate. -/
theorem fruitImpact_negative_weight :
    (50 : ℚ) < ({ initialFormData with fruitScore := 100 } : FormData).fruitScore
      ∧ fruitImpact negativeWeightData { initialFormData with fruitScore := 100 } = .num (-10)
      ∧ (∀ r, baseRate r negativeWeightData { initialFormData with fruitScore := 100 }
          = .number (.num 30))
      ∧ (∀ r, totalRisk r negativeWeightData { initialFormData with fruitScore := 100 }
          = some (.num 20))
      ∧ (∀ r, calculateRisk r negativeWeightData { initialFormData with fruitScore := 100 }
          = .ok (.text "20.0")) := by
  have hb : ∀ r, baseRate r negativeWeightData { initialFormData with fruitScore := 100 }
      = .number (.num 30) := fun r => by
    rw [baseRate_of_present r negativeWeightData { initialFormData with fruitScore := 100 }
      texasCategories texasGroups 30 rfl rfl rfl, numberOf_thirty]
  refine ⟨by norm_num, fruitImpact_minusTen, hb, fun r => ?_, fun r => ?_⟩
  · rw [totalRisk_of_baseRate_number r _ _ _ (hb r), sum_minusTen]
  · rw [calculateRisk_of_baseRate_number r _ _ _ (hb r), sum_minusTen, toFixed_twenty]

/-! ## Lemmas on objects and `Object.keys` -/

theorem lookup_isSome_iff {α : Type} (l : List (String × α)) (k : String) :
    (∃ v, l.lookup k = some v) ↔ k ∈ l.map Prod.fst := by
  induction l with
  | nil => simp
  | cons p l ih =>
    obtain ⟨a, v⟩ := p
    by_cases h : k = a
    · subst h; simp [List.lookup]
    · have hb : (k == a) = false := by simpa using h
      simp [List.lookup, hb, ih, h]

theorem Obj.get?_isSome_iff {α : Type} (o : Obj α) (k : String) :
    (∃ v, o.get? k = some v) ↔ k ∈ o.entries.map Prod.fst :=
  lookup_isSome_iff o.entries k

/-- The pairs of index and name that `Obj.keys` sorts, for a test `f`. -/
theorem indexed_map_snd (f : String → Option ℕ) (l : List String) :
    (l.filterMap (fun k => (f k).map (fun n => (n, k)))).map Prod.snd
      = l.filter (fun k => (f k).isSome) := by
  induction l with
  | nil => rfl
  | cons k l ih =>
    cases h : f k with
    | none => simp [List.filterMap_cons, List.filter_cons, h, ih]
    | some n => simp [List.filterMap_cons, List.filter_cons, h, ih]

theorem indexed_spec (f : String → Option ℕ) (l : List String) :
    ∀ p ∈ l.filterMap (fun k => (f k).map (fun n => (n, k))), f p.2 = some p.1 := by
  intro p hp
  rw [List.mem_filterMap] at hp
  obtain ⟨k, _, hk⟩ := hp
  cases h : f k with
  | none => simp [h] at hk
  | some n =>
    simp [h] at hk
    subst hk
    exact h

theorem filterMap_map_snd (f : String → Option ℕ) (L : List (ℕ × String))
    (h : ∀ p ∈ L, f p.2 = some p.1) : (L.map Prod.snd).filterMap f = L.map Prod.fst := by
  induction L with
  | nil => rfl
  | cons p L ih =>
    have hp := h p (List.mem_cons_self _ _)
    have hL := ih (fun q hq => h q (List.mem_cons_of_mem _ hq))
    simp [List.filterMap_cons, hp, hL]

theorem sorted_fst_insertionSort (L : List (ℕ × String)) :
    ((L.insertionSort (fun a b => a.1 ≤ b.1)).map Prod.fst).Sorted (· ≤ ·) := by
  haveI : IsTotal (ℕ × String) (fun a b => a.1 ≤ b.1) := ⟨fun a b => le_total a.1 b.1⟩
  haveI : IsTrans (ℕ × String) (fun a b => a.1 ≤ b.1) := ⟨fun _ _ _ h1 h2 => le_trans h1 h2⟩
  have h := List.sorted_insertionSort (fun a b : ℕ × String => a.1 ≤ b.1) L
  exact List.pairwise_map.2 h

/-- The keys are a rearrangement of the property names. -/
theorem Obj.keys_perm {α : Type} (o : Obj α) : o.keys.Perm (o.entries.map Prod.fst) := by
  unfold Obj.keys
  have h1 := ((List.perm_insertionSort (fun a b : ℕ × String => a.1 ≤ b.1)
    ((o.entries.map Prod.fst).filterMap
      (fun k => (arrayIndex? k).map (fun n => (n, k))))).map Prod.snd)
  rw [indexed_map_snd] at h1
  have h2 := List.filter_append_perm (fun k => (arrayIndex? k).isSome) (o.entries.map Prod.fst)
  have e : (fun k : String => !(arrayIndex? k).isSome) = (fun k => (arrayIndex? k).isNone) := by
    funext k; cases arrayIndex? k <;> rfl
  rw [e] at h2
  exact (List.Perm.append_right _ h1).trans h2

theorem Obj.keys_nodup {α : Type} (o : Obj α) : o.keys.Nodup :=
  (o.keys_perm.nodup_iff).2 o.nodup

theorem Obj.mem_keys_iff {α : Type} (o : Obj α) (k : String) :
    k ∈ o.keys ↔ ∃ v, o.get? k = some v := by
  rw [o.get?_isSome_iff, o.keys_perm.mem_iff]

theorem Obj.keys_eq_nil_iff {α : Type} (o : Obj α) : o.keys = [] ↔ o.entries = [] := by
  constructor
  · intro h
    have hp := o.keys_perm
    rw [h] at hp
    exact List.map_eq_nil_iff.1 (List.Perm.nil_eq hp).symm
  · intro h
    simp [Obj.keys, h]

/-- Without array indices among the names, the keys are the names in creation
order. -/
theorem Obj.keys_eq_names {α : Type} (o : Obj α)
    (h : ∀ k ∈ o.entries.map Prod.fst, arrayIndex? k = none) :
    o.keys = o.entries.map Prod.fst := by
  unfold Obj.keys
  have h1 : (o.entries.map Prod.fst).filterMap (fun k => (arrayIndex? k).map (fun n => (n, k)))
      = [] := by
    rw [List.filterMap_eq_nil_iff]
    intro k hk
    simp [h k hk]
  have h2 : (o.entries.map Prod.fst).filter (fun k => (arrayIndex? k).isNone)
      = o.entries.map Prod.fst := by
    rw [List.filter_eq_self]
    intro k hk
    simp [h k hk]
  simp only [h1, h2]
  rfl

/-- The order of the keys in general: the array indices in ascending order
first, then the other names in creation order. -/
theorem Obj.keys_order {α : Type} (o : Obj α) :
    ∃ indices others, o.keys = indices ++ others
      ∧ (∀ k ∈ indices, (arrayIndex? k).isSome)
      ∧ (indices.filterMap arrayIndex?).Sorted (· ≤ ·)
      ∧ others = (o.entries.map Prod.fst).filter (fun k => (arrayIndex? k).isNone) := by
  refine ⟨_, _, rfl, ?_, ?_, rfl⟩
  · intro k hk
    rw [List.mem_map] at hk
    obtain ⟨p, hp, rfl⟩ := hk
    have hp2 := (List.perm_insertionSort _ _).mem_iff.1 hp
    rw [indexed_spec arrayIndex? _ p hp2]
    rfl
  · rw [filterMap_map_snd arrayIndex? _ (fun p hp =>
      indexed_spec arrayIndex? _ p ((List.perm_insertionSort _ _).mem_iff.1 hp))]
    exact sorted_fst_insertionSort _

theorem getGroups_of_present (ds : Dataset) (c : String) (anchor : Obj (Obj ℚ))
    (groups : Obj ℚ) (ha : ds.demographics.get? "Alabama" = some anchor)
    (hc : anchor.get? c = some groups) : getGroups ds c = groups.keys := by
  simp [getGroups, getGroupsTry, ha, hc]

/-! ## Claims on `getGroups` -/

/-- C7, as stated, fails: a category of the anchor state that stores no group
gives the empty list, and group labels that are array indices are listed in
ascending numeric order, not in the order in which the dataset stores them. -/
theorem getGroups_not_always_nonempty_or_stored_order :
    oddAnchorData.demographics.get? "Alabama" = some oddAnchorCategories
      ∧ oddAnchorCategories.get? "Gender" = some noGroups
      ∧ getGroups oddAnchorData "Gender" = []
      ∧ oddAnchorCategories.get? "Year" = some yearGroups
      ∧ yearGroups.entries.map Prod.fst = ["2", "1"]
      ∧ getGroups oddAnchorData "Year" = ["1", "2"] := by
  refine ⟨rfl, rfl, ?_, rfl, rfl, ?_⟩ <;> decide

/-- C7, amended: for a category that is a key of the anchor state `Alabama`,
`getGroups` returns the keys stored under that category, each once and nothing
else; the list is empty exactly when the category stores no group; the array
indices among the keys come first in ascending order and the other keys follow
in stored order, so that without array indices the list is in stored order; a
change of the selected state does not change the list. -/
theorem getGroups_anchor_keys (ds : Dataset) (c : String) (anchor : Obj (Obj ℚ))
    (groups : Obj ℚ) (ha : ds.demographics.get? "Alabama" = some anchor)
    (hc : anchor.get? c = some groups) :
    (getGroups ds c).Perm (groups.entries.map Prod.fst)
      ∧ (getGroups ds c).Nodup
      ∧ (∀ g, g ∈ getGroups ds c ↔ ∃ b, groups.get? g = some b)
      ∧ (getGroups ds c = [] ↔ groups.entries = [])
      ∧ ((∀ k ∈ groups.entries.map Prod.fst, arrayIndex? k = none) →
          getGroups ds c = groups.entries.map Prod.fst)
      ∧ (∃ indices others, getGroups ds c = indices ++ others
          ∧ (∀ k ∈ indices, (arrayIndex? k).isSome)
          ∧ (indices.filterMap arrayIndex?).Sorted (· ≤ ·)
          ∧ others = (groups.entries.map Prod.fst).filter (fun k => (arrayIndex? k).isNone))
      ∧ (∀ (fd : FormData) (s : String),
          getGroups ds (handleChange ds fd (.state s)).category = getGroups ds fd.category) := by
  rw [getGroups_of_present ds c anchor groups ha hc]
  exact ⟨groups.keys_perm, groups.keys_nodup, groups.mem_keys_iff, groups.keys_eq_nil_iff,
    groups.keys_eq_names, groups.keys_order, fun _ _ => rfl⟩

/-- C7, witness: the category `Gender` of `alabamaData` lists `Male`, `Female`. -/
theorem getGroups_anchor_keys_witness :
    alabamaData.demographics.get? "Alabama" = some alabamaCategories
      ∧ alabamaCategories.get? "Gender" = some alabamaGenderGroups
      ∧ getGroups alabamaData "Gender" = ["Male", "Female"] :=
  ⟨rfl, rfl,
    (getGroups_anchor_keys alabamaData "Gender" alabamaCategories alabamaGenderGroups
      rfl rfl).2.2.2.2.1 (by decide)⟩

/-- C8: when the anchor state `Alabama` is absent, or the category is not a key
of the anchor state, `getGroups` returns the empty list. -/
theorem getGroups_unknown_category (ds : Dataset) (c : String)
    (h : ds.demographics.get? "Alabama" = none
      ∨ ∃ anchor, ds.demographics.get? "Alabama" = some anchor ∧ anchor.get? c = none) :
    getGroups ds c = [] := by
  rcases h with h | ⟨anchor, ha, hc⟩
  · simp [getGroups, getGroupsTry, h]
  · simp [getGroups, getGroupsTry, ha, hc]

/-- C8, witness: the scenario dataset has no anchor state, and the anchor state
of `alabamaData` has no category `Income`. -/
theorem getGroups_unknown_category_witness :
    texasData.demographics.get? "Alabama" = none
      ∧ getGroups texasData "Gender" = []
      ∧ alabamaData.demographics.get? "Alabama" = some alabamaCategories
      ∧ alabamaCategories.get? "Income" = none
      ∧ getGroups alabamaData "Income" = [] :=
  ⟨rfl, getGroups_unknown_category texasData "Gender" (Or.inl rfl), rfl, rfl,
    getGroups_unknown_category alabamaData "Income" (Or.inr ⟨alabamaCategories, rfl, rfl⟩)⟩

/-! ## Claims on `handleChange` -/

theorem firstOrEmpty_eq (l : List String) : firstOrEmpty l = l.head?.getD "" := by
  cases l with
  | nil => rfl
  | cons g l =>
    by_cases h : g = ""
    · simp [firstOrEmpty, h]
    · simp [firstOrEmpty, h]

/-- C9, as stated, fails: with the scenario dataset, which has no anchor state,
a change of the category to `Gender` stores the empty text as the group, and
the empty text is not a member of the empty list `getGroups` returns. -/
theorem handleChange_group_not_member :
    getGroups texasData "Gender" = []
      ∧ (handleChange texasData initialFormData (.category "Gender")).group = ""
      ∧ (handleChange texasData initialFormData (.category "Gender")).group
          ∉ getGroups texasData "Gender" := by
  decide

/-- C9, amended: after a change of the category to `c` the stored category is
`c`, the other fields but the group are as before, and the stored group is the
first element of `getGroups c` when that list is not empty, hence a member of
it, and the empty text when the list is empty. -/
theorem handleChange_category (ds : Dataset) (fd : FormData) (c : String) :
    (handleChange ds fd (.category c)).category = c
      ∧ (handleChange ds fd (.category c)).group = (getGroups ds c).head?.getD ""
      ∧ (getGroups ds c ≠ [] →
          (getGroups ds c).head? = some (handleChange ds fd (.category c)).group
            ∧ (handleChange ds fd (.category c)).group ∈ getGroups ds c)
      ∧ (getGroups ds c = [] → (handleChange ds fd (.category c)).group = "")
      ∧ (handleChange ds fd (.category c)).state = fd.state
      ∧ (handleChange ds fd (.category c)).fruitScore = fd.fruitScore
      ∧ (handleChange ds fd (.category c)).exerciseScore = fd.exerciseScore := by
  have hg : (handleChange ds fd (.category c)).group = (getGroups ds c).head?.getD "" :=
    firstOrEmpty_eq _
  refine ⟨rfl, hg, ?_, ?_, rfl, rfl, rfl⟩
  · intro hne
    rw [hg]
    cases h : getGroups ds c with
    | nil => exact absurd h hne
    | cons g l => simp
  · intro h
    rw [hg, h]
    rfl

/-- C9, witness: with `alabamaData`, a change of the category to `Gender` stores
the group `Male`, the first of the two groups of that category. -/
theorem handleChange_category_witness :
    getGroups alabamaData "Gender" ≠ []
      ∧ (handleChange alabamaData initialFormData (.category "Gender")).group = "Male"
      ∧ (handleChange alabamaData initialFormData (.category "Gender")).group
          ∈ getGroups alabamaData "Gender" :=
  ⟨by decide, by decide,
    ((handleChange_category alabamaData initialFormData "Gender").2.2.1 (by decide)).2⟩

/-! ## Claims on `getRiskColor` -/

/-- C10: for every number `q`, `getRiskColor` gives the high band exactly when
`q > 35`, the med band exactly when `28 < q` and `q ≤ 35`, and the low band
exactly when `q ≤ 28`; so 36 is high, 28.1 is med, 28 is low and 35 is med. -/
theorem getRiskColor_bands (q : ℚ) :
    (getRiskColor (.num q) = "risk-high" ↔ 35 < q)
      ∧ (getRiskColor (.num q) = "risk-med" ↔ 28 < q ∧ q ≤ 35)
      ∧ (getRiskColor (.num q) = "risk-low" ↔ q ≤ 28)
      ∧ getRiskColor (.num 36) = "risk-high"
      ∧ getRiskColor (.num (281 / 10)) = "risk-med"
      ∧ getRiskColor (.num 28) = "risk-low"
      ∧ getRiskColor (.num 35) = "risk-med" := by
  have key : ∀ r : ℚ, getRiskColor (.num r)
      = if 35 < r then "risk-high" else if 28 < r then "risk-med" else "risk-low" := by
    intro r
    simp [getRiskColor, JSNum.gt]
  have hm : ("risk-med" : String) ≠ "risk-high" := by decide
  have hl : ("risk-low" : String) ≠ "risk-high" := by decide
  have hlm : ("risk-low" : String) ≠ "risk-med" := by decide
  refine ⟨?_, ?_, ?_, ?_, ?_, ?_, ?_⟩
  · rw [key]
    by_cases h1 : 35 < q
    · simp [h1]
    · by_cases h2 : 28 < q
      · simp [h1, h2, hm]
      · simp [h1, h2, hl]
  · rw [key]
    by_cases h1 : 35 < q
    · simp [h1, hm.symm]
    · by_cases h2 : 28 < q
      · simp [h1, h2, not_lt.1 h1]
      · simp [h1, h2, hlm]
  · rw [key]
    by_cases h1 : 35 < q
    · have h3 : ¬ q ≤ 28 := by linarith
      simp [h1, hl.symm, h3]
    · by_cases h2 : 28 < q
      · simp [h1, h2, hlm.symm]
      · simp [h1, h2, not_lt.1 h2]
  · rw [key]; norm_num
  · rw [key]; norm_num
  · rw [key]; norm_num
  · rw [key]; norm_num

end NutritionModel
